import Mathlib

/-!
Verification development for the cellshift data-anonymization library.

The library keeps one canonical materialized table per dataset handle
(`CS` object) and rewrites it column by column: add/drop/replace/rename/retype,
character masking, email masking, Gaussian/impulse/salt-and-pepper noise,
integer/float range bucketing, and synthetic-date substitution.  The Lean
model below is a shallow embedding of the table state and of those
operations, translated from `src/cellshift/columns.py`, `masks.py`,
`noise.py`, `ranges.py`, `rows.py` and `synthetic.py`.

Modelling conventions:
* a table is a list of named columns, each a list of cell values;
* the engine state (`Eng`) also tracks the names registered as temporary
  views, so that register/unregister pairing can be stated;
* operations return `Option String × Eng`: `some msg` models a raised
  Python exception carrying `msg`, and the returned state is the database
  state at the moment the call ends (Python exceptions do not roll back
  already-executed SQL);
* sources of randomness (numpy draws, `ORDER BY RANDOM()` permutations,
  Faker) are passed in as explicit oracle arguments; numpy guarantees such
  as "a permutation of the row ids" become hypotheses of the theorems;
* floating-point arithmetic inside noise values and float-range bucket
  arithmetic is abstracted by oracle functions (only the shape of those
  columns matters for the claims); rationals stand in for Python floats
  where actual arithmetic is claimed (percent thresholds, sample counts);
* the `verbose` flags of the Python functions only control logging and are
  not modelled.
-/

/-- A cell value of the canonical table: SQL NULL, an integer, a string, or
a two-element `[range_start, range_end]` list as produced by the range
bucketing operations. -/
inductive Value where
  | vnull : Value
  | vint : Int → Value
  | vstr : String → Value
  | vpair : Int → Int → Value
deriving DecidableEq, Repr

/-- A table: columns in order, each with its name and its cells. -/
abbrev Table := List (String × List Value)

/-- The engine state owned by one dataset handle: the canonical table plus
the names currently registered as temporary views on the connection. -/
structure Eng where
  table : Table
  registered : List String
deriving DecidableEq, Repr

/-- Python `str.lower()` on a Lean string (ASCII case folding, which is what
the column names in motion need). -/
def lowerStr (s : String) : String := String.mk (s.data.map Char.toLower)

/-- Python `str.isidentifier()` restricted to ASCII: nonempty, first char a
letter or underscore, rest alphanumeric or underscore. -/
def isIdent (s : String) : Bool :=
  match s.data with
  | [] => false
  | c :: cs => (c.isAlpha || c == '_') && cs.all (fun d => d.isAlphanum || d == '_')

/-- Number of rows of the canonical table (`SELECT count(*)`): every column
has the same length, the head column is representative. -/
def rowCount (t : Table) : Nat :=
  match t with
  | [] => 0
  | c :: _ => c.2.length

/-- Well-formedness of a table: all columns have the same number of cells. -/
def wfTable (t : Table) : Bool := t.all (fun c => c.2.length == rowCount t)

/-- Case-insensitive column lookup, as the Python code compares
`col.lower()` against lowered names. -/
def findCol (t : Table) (name : String) : Option (String × List Value) :=
  t.find? (fun c => lowerStr c.1 == lowerStr name)

/-- Case-insensitive `name in columns` test used by every validation. -/
def hasCol (t : Table) (name : String) : Bool := (findCol t name).isSome

/-- Cells of the named column (empty when the column is absent; the callers
validate presence first). -/
def getColVals (t : Table) (name : String) : List Value :=
  ((findCol t name).map (fun c => c.2)).getD []

/- ===== masks.py: the scalar masking transform `_mask_value_for_duckdb` ===== -/

/-- A value handed to the masking UDF: the UDF is registered either at
BIGINT or at VARCHAR argument type, so its input is an int or a string. -/
inductive PyVal where
  | pint : Int → PyVal
  | pstr : List Char → PyVal
deriving DecidableEq, Repr

/-- Python `str(value)` for the two input kinds, as a char list. -/
def pyStrOf (v : PyVal) : List Char :=
  match v with
  | .pint n => if n < 0 then '-' :: Nat.toDigits 10 n.natAbs else Nat.toDigits 10 n.natAbs
  | .pstr s => s

/-- The negative-number-string test of `_mask_value_for_duckdb`:
`value.startswith("-") and value[1:].isdigit()` (an empty remainder is not
a digit string). -/
def negNumStr (s : List Char) : Prop :=
  s.headD ' ' = '-' ∧ s.tail ≠ [] ∧ s.tail.all Char.isDigit

instance (s : List Char) : Decidable (negNumStr s) := by
  unfold negNumStr
  infer_instance

/-- The sign prefix split off by `_mask_value_for_duckdb`: a leading minus
of a negative int, or of a string that is a minus sign followed by digits. -/
def maskSign (v : PyVal) : List Char :=
  match v with
  | .pint n => if n < 0 then ['-'] else []
  | .pstr s => if negNumStr s then ['-'] else []

/-- The `processed_value_str` of `_mask_value_for_duckdb`: the stringified
value with the sign prefix stripped. -/
def maskProc (v : PyVal) : List Char :=
  match v with
  | .pint n => Nat.toDigits 10 n.natAbs
  | .pstr s => if negNumStr s then s.tail else s

/-- Body of the mask (everything after the sign): the first
`actual_mask_left` and last `actual_mask_right` characters are replaced by
the mask char; if together they cover the string, every character is
replaced.  `mask_left`/`mask_right` enter as naturals since the public
wrappers validate them non-negative. -/
def maskBody (v : PyVal) (maskLeft maskRight : Nat) (maskChar : List Char) : List Char :=
  let c := match maskChar with
    | [] => ' '
    | ch :: _ => ch
  let proc := maskProc v
  let len := proc.length
  let al := min maskLeft len
  let ar := min maskRight (len - al)
  if len ≤ al + ar then List.replicate len c
  else proc.mapIdx (fun i ch => if i < al ∨ len - ar ≤ i then c else ch)

/-- `_mask_value_for_duckdb` (masks.py, lines 16-64): sign prefix plus
masked body. -/
def maskValueForDuckdb (v : PyVal) (maskLeft maskRight : Nat) (maskChar : List Char) : List Char :=
  maskSign v ++ maskBody v maskLeft maskRight maskChar

/-- Lift of the masking UDF to table cells, as applied by the
`UPDATE ... SET new = mask_?_val(base, l, r, c)` statement: SQL NULL maps to
NULL, ints and strings through the UDF.  A `[start, end]` pair never reaches
the UDF because the type dispatch admits only INTEGER/VARCHAR columns. -/
def maskCell (maskLeft maskRight : Nat) (maskChar : String) (v : Value) : Value :=
  match v with
  | .vnull => .vnull
  | .vint n => .vstr (String.mk (maskValueForDuckdb (.pint n) maskLeft maskRight maskChar.data))
  | .vstr s => .vstr (String.mk (maskValueForDuckdb (.pstr s.data) maskLeft maskRight maskChar.data))
  | .vpair _ _ => .vnull

/-- Column content test standing in for the catalog type check
`"INT" in data_type`: every cell is an integer or NULL. -/
def colIsInt (vals : List Value) : Bool :=
  vals.all (fun v => match v with
    | .vint _ => true
    | .vnull => true
    | _ => false)

/-- Column content test standing in for the catalog type check
`data_type in ("CHAR", "VARCHAR", "STRING")`. -/
def colIsStr (vals : List Value) : Bool :=
  vals.all (fun v => match v with
    | .vstr _ => true
    | .vnull => true
    | _ => false)

/- ===== columns.py: the column rewrite operations ===== -/

/-- The `ValueError` message of `add_column` on a row-count mismatch
(columns.py, lines 168-172). -/
def mismatchMsg (newLen origLen : Nat) : String :=
  ("Number of rows in new column (") ++ toString newLen ++
    (") must match the original data (") ++ toString origLen ++ (").")

/-- `add_column` (columns.py, lines 109-197): register the vector as a
temporary view, compare row counts, on mismatch unregister and raise, else
positional-join the vector onto the canonical table as a trailing column and
unregister the view. -/
def add_column (s : Eng) (vec : List Value) (name temp : String) : Option String × Eng :=
  if isIdent name then
    let reg1 := temp :: s.registered
    if vec.length = rowCount s.table then
      (none, { table := s.table ++ [(name, vec)], registered := reg1.erase temp })
    else
      (some (mismatchMsg vec.length (rowCount s.table)), { table := s.table, registered := reg1.erase temp })
  else
    (some ("column_name must be a valid identifier (no spaces or special characters)."), s)

/-- `drop_column` (columns.py, lines 199-255).  The third component records
the Python return value: `true` when the function returns `self`, `false`
when it returns `None` (the bare `return` taken on an empty name list). -/
def drop_column (s : Eng) (names : List String) : Option String × Eng × Bool :=
  match names with
  | [] => (none, s, false)
  | _ :: _ =>
    let lower := names.map lowerStr
    if lower.all (fun n => s.table.any (fun c => lowerStr c.1 == n)) then
      let keep := s.table.filter (fun c => !(lower.contains (lowerStr c.1)))
      if keep.isEmpty then (some ("Cannot drop all columns."), s, true)
      else (none, { s with table := keep }, true)
    else (some ("Column not found in the data."), s, true)

/-- `drop_column` viewed as a state transformer (return value dropped), the
shape in which the generator chains call it. -/
def dropOp (names : List String) (s : Eng) : Option String × Eng :=
  ((drop_column s names).1, (drop_column s names).2.1)

/-- The projection of one original column under `replace_column`: a target
column keeps its name and position but carries the cells of its paired
source column; any other column is kept as is. -/
def replaceMapFn (t : Table) (tgts srcs : List String) (c : String × List Value) :
    String × List Value :=
  match (tgts.map lowerStr).findIdx? (fun x => x == lowerStr c.1) with
  | some i => (c.1, getColVals t (srcs.getD i ("")))
  | none => c

/-- `replace_column` (columns.py, lines 257-332): project every original
column in order, substituting the source column cells under each target
column name. -/
def replace_column (s : Eng) (tgts srcs : List String) : Option String × Eng :=
  if tgts.isEmpty || srcs.isEmpty then
    (some ("Both column_to_replace and replace_column must contain at least one column."), s)
  else if tgts.length ≠ srcs.length then
    (some ("The number of columns to replace must match the number of replacement columns."), s)
  else if (tgts ++ srcs).all (fun n => hasCol s.table n) then
    (none, { s with table := s.table.map (replaceMapFn s.table tgts srcs) })
  else (some ("Column not found in the data."), s)

/-- `rename_column` applied to one column (the body of the per-column
`ALTER TABLE ... RENAME COLUMN` loop). -/
def renameOne (t : Table) (oldName newName : String) : Table :=
  t.map (fun c => if lowerStr c.1 == lowerStr oldName then (newName, c.2) else c)

/-- `rename_column` (columns.py, lines 334-436): validate lengths,
existence and identifier well-formedness, then rename sequentially. -/
def rename_column (s : Eng) (olds news : List String) : Option String × Eng :=
  if olds.length ≠ news.length then
    (some ("The number of base columns must match the number of new column names."), s)
  else if olds.isEmpty then (none, s)
  else if !(olds.all (fun o => hasCol s.table o)) then
    (some ("Column to rename not found in the data."), s)
  else if !(news.all isIdent) then
    (some ("New column name is not a valid identifier."), s)
  else
    (none, { s with table := (olds.zip news).foldl (fun t p => renameOne t p.1 p.2) s.table })

/-- `set_column_type` (columns.py, lines 12-107): validate the name list,
then retype each named column in place.  The per-type SQL cast is abstracted
by the `cast` oracle (one cast applied to the cells of every named column);
the paired-list length validation of the source is subsumed by passing the
names already paired with that cast. -/
def set_column_type (s : Eng) (names : List String) (cast : Value → Value) : Option String × Eng :=
  if names.isEmpty then (none, s)
  else if names.all (fun n => hasCol s.table n) then
    (none, { s with table := s.table.map (fun c =>
        if names.any (fun n => lowerStr n == lowerStr c.1) then (c.1, c.2.map cast) else c) })
  else (some ("Column not found in the data."), s)

/- ===== masks.py: public masking operations ===== -/

/-- `add_masked_column` (masks.py, lines 66-205): validate arguments and the
base column type, then `ALTER TABLE ADD COLUMN` plus an `UPDATE` that fills
the new VARCHAR column with the masking UDF applied to every row of the
base column. -/
def add_masked_column (s : Eng) (base : String) (newname : Option String)
    (maskLeft maskRight : Nat) (maskChar : String) : Option String × Eng :=
  let nn := newname.getD (("masked_") ++ base)
  if nn.isEmpty then
    (some ("add_masked_column: new_column_name must be a non-empty string or None."), s)
  else if base.isEmpty then
    (some ("add_masked_column: base_column must be a non-empty string."), s)
  else if maskChar.isEmpty then
    (some ("add_masked_column: mask_char must be a non-empty string or an integer."), s)
  else if !(hasCol s.table base) then
    (some (("Column ") ++ base ++ (" not found in the table.")), s)
  else
    let vals := getColVals s.table base
    if colIsInt vals || colIsStr vals then
      (none, { s with table := s.table ++ [(nn, vals.map (maskCell maskLeft maskRight maskChar))] })
    else
      (some (("Column ") ++ base ++ (" is not of an allowed type (INTEGER or VARCHAR/CHAR/STRING).")), s)

/-- In-place rewrite of the cells of one named column by a
length-preserving transformation, the shape of every `UPDATE` statement. -/
def updateColWith (t : Table) (name : String) (f : List Value → List Value) : Table :=
  t.map (fun c => if lowerStr c.1 == lowerStr name then (c.1, f c.2) else c)

/-- The general email mask `UPDATE`: each still-NULL cell of the new column
receives the regexp-replaced base cell (`f` abstracts the
`regexp_replace` of the user/domain parts), other cells are kept. -/
def updateNullCells (t : Table) (name base : String) (f : Value → Value) : Table :=
  updateColWith t name (fun vals =>
    vals.mapIdx (fun i v => if v = Value.vnull then f ((getColVals t base).getD i Value.vnull) else v))

/-- The per-segment `UPDATE` statements of the domain-choices loop: a list
of (row position, new cell) assignments applied to the named column. -/
def applySetsCol (t : Table) (name : String) (upds : List (Nat × Value)) : Table :=
  updateColWith t name (fun vals => upds.foldl (fun acc p => acc.set p.1 p.2) vals)

/-- `add_masked_mail_column` (masks.py, lines 213-448): validate, add the
new VARCHAR column as all-NULL if absent, apply the general user/domain
mask to the still-unmasked rows when requested, then apply the
domain-choices segment updates.  `genMask` abstracts the single-value
regexp replacement, `upds` the randomized segment updates (their counts
are modelled exactly by `segCounts` below). -/
def add_masked_mail_column (s : Eng) (base : String) (newname : Option String)
    (genMask : Option (Value → Value)) (upds : List (Nat × Value)) : Option String × Eng :=
  let nn := newname.getD (("masked_") ++ base)
  if nn.isEmpty then
    (some ("add_masked_column: new_column_name must be a non-empty string or None."), s)
  else if base.isEmpty then
    (some ("add_masked_column: base_column must be a non-empty string."), s)
  else if !(hasCol s.table base) then
    (some (("Column ") ++ base ++ (" not found in the table.")), s)
  else if !(colIsStr (getColVals s.table base)) then
    (some (("Column ") ++ base ++ (" is not of an allowed type (VARCHAR/CHAR/STRING).")), s)
  else
    let t1 := if hasCol s.table nn then s.table
              else s.table ++ [(nn, List.replicate (rowCount s.table) Value.vnull)]
    let t2 := match genMask with
      | some f => updateNullCells t1 nn base f
      | none => t1
    (none, { s with table := applySetsCol t2 nn upds })

/-- Counts the eligible row numbers `1..e` whose `ROW_NUMBER() OVER
(ORDER BY RANDOM()) % n = i`, i.e. the rows the i-th (non-final)
domain-choices segment update touches.  The count is independent of the
random order. -/
def segStep (n i e : Nat) : Nat :=
  ((List.range e).map (fun k => k + 1)).countP (fun rn => rn % n == i)

/-- The per-choice assignment counts of the domain-choices loop: at step
`i < n - 1` the rows with `rn % n = i` among the currently eligible rows
are masked and leave the eligible pool; the final choice absorbs every row
still eligible. -/
def segCountsGo (n : Nat) : Nat → Nat → Nat → List Nat
  | 0, _, _ => []
  | 1, e, _ => [e]
  | k + 2, e, i => segStep n i e :: segCountsGo n (k + 1) (e - segStep n i e) (i + 1)

/-- Rows assigned to each of the `n` domain choices when `e` rows are
eligible (masks.py, lines 385-440). -/
def segCounts (n e : Nat) : List Nat := segCountsGo n n e 0

/-- An engine-level failure injected at a `replace_column` call site: `some
msg` models the underlying SQL execution raising, `none` the normal path.
The generator chains adopt their staged column through this wrapper. -/
def replace_columnF (fault : Option String) (s : Eng) (tgts srcs : List String) : Option String × Eng :=
  match fault with
  | some m => (some m, s)
  | none => replace_column s tgts srcs

/-- An engine-level failure injected at a cleanup `drop_column` call site. -/
def dropOpF (cfault : Option String) (names : List String) (s : Eng) : Option String × Eng :=
  match cfault with
  | some m => (some m, s)
  | none => dropOp names s

/-- `mask_column` (masks.py, lines 450-485): stage the masked column, adopt
it via `replace_column`, drop it — three sequential calls with no handler,
so an adoption failure propagates with the staged column still present. -/
def mask_column (s : Eng) (base : String) (maskLeft maskRight : Nat) (maskChar : String)
    (fault : Option String) : Option String × Eng :=
  let nn := ("masked_") ++ base
  match add_masked_column s base (some nn) maskLeft maskRight maskChar with
  | (some e, s1) => (some e, s1)
  | (none, s1) =>
    match replace_columnF fault s1 [base] [nn] with
    | (some e, s2) => (some e, s2)
    | (none, s2) => dropOp [nn] s2

/-- `mask_mail_column` (masks.py, lines 487-528): same unprotected
stage/adopt/cleanup sequence over the email mask. -/
def mask_mail_column (s : Eng) (base : String) (genMask : Option (Value → Value))
    (upds : List (Nat × Value)) (fault : Option String) : Option String × Eng :=
  let nn := ("masked_") ++ base
  match add_masked_mail_column s base (some nn) genMask upds with
  | (some e, s1) => (some e, s1)
  | (none, s1) =>
    match replace_columnF fault s1 [base] [nn] with
    | (some e, s2) => (some e, s2)
    | (none, s2) => dropOp [nn] s2

/- ===== noise.py ===== -/

/-- Non-NULL cell count of a column, i.e. SQL `COUNT(col)`. -/
def nonNullCount (t : Table) (base : String) : Nat :=
  (getColVals t base).countP (fun v => !(v == Value.vnull))

/-- The model of the `TypeError` numpy raises at noise.py line 54 when
`COUNT(base) = 0`: the aggregate query then returns `AVG = STDDEV_POP =
NULL`, and `np.random.normal(None, None, 0)` fails before `add_column` is
ever reached (the exact interpreter text is abstracted by this marker). -/
def normalNullStatsMsg : String :=
  ("np.random.normal received NULL mean and stddev (COUNT of the base column is 0)")

/-- `add_gaussian_noise_column` (noise.py, lines 11-73): one aggregate
query yields `COUNT(base)`, `AVG(base)` and `STDDEV_POP(base)`.  When the
count is zero (all-NULL or empty base column) the mean and stddev are SQL
NULL and `np.random.normal(None, None, 0)` raises `TypeError` (noise.py
line 54); otherwise `STDDEV_POP` is non-NULL (population stddev, defined
already for one value), `COUNT(base)` samples are drawn (the numpy draw is
abstracted as `draw`) and the sample vector is attached through the
positional-join `add_column`. -/
def add_gaussian_noise_column (s : Eng) (base : String) (newname : Option String)
    (temp : String) (draw : Nat → List Value) : Option String × Eng :=
  if !(hasCol s.table base) then
    (some (("Column ") ++ base ++ (" not found in the data.")), s)
  else if nonNullCount s.table base = 0 then
    (some (normalNullStatsMsg), s)
  else
    let nn := newname.getD (("noise_") ++ base)
    add_column s (draw (nonNullCount s.table base)) nn temp

/-- The sample-count computation shared by impulse and salt-and-pepper
noise (noise.py, lines 149-153 and 251-257): `n_samples` takes precedence;
otherwise `max(1, int(sample_pct * total_rows / 100))` — `int()` truncates,
which is `floor` for the positive values the validation admits. -/
def numSamplesToAlter (nSamples : Option Int) (samplePct : Option Rat) (totalRows : Nat) : Nat :=
  match nSamples with
  | some n => n.toNat
  | none =>
    match samplePct with
    | some p => max 1 (Int.toNat (Int.floor (p * totalRows / 100)))
    | none => 0

/-- The row positions altered by a noise operation:
`np.random.choice(total_rows, size=k, replace=False)` is modelled as the
first `k` entries of a permutation `perm` of `range total_rows`. -/
def selectRowIds (perm : List Nat) (k : Nat) : List Nat := perm.take k

/-- `MAX(ABS(base))`-based impulse magnitude (noise.py, lines 129-140):
an explicit `impulse_mag` takes precedence; otherwise the maximum absolute
value of the base column scales `impulse_pct`. -/
def maxImpulseVal (t : Table) (base : String) (impulseMag impulsePct : Option Rat) :
    Except String Rat :=
  match impulseMag with
  | some m => .ok m
  | none =>
    match impulsePct with
    | some q =>
      match ((getColVals t base).filterMap (fun v => match v with
          | Value.vint n => some ((n.natAbs : Int))
          | _ => none)).max? with
      | some ma => .ok ((ma : Rat) * q / 100)
      | none => .error (("Could not calculate MAX(ABS()) for column ") ++ base ++ (". Is it all NULLs or non-numeric?"))
    | none => .ok 0

/-- The per-selected-row `UPDATE ... WHERE rowid = id` loop of the noise
operations: the i-th selected row of the named column receives `f i`. -/
def applyAtCol (t : Table) (name : String) (ids : List Nat) (f : Nat → Value) : Table :=
  updateColWith t name (fun vals => ids.enum.foldl (fun acc p => acc.set p.2 (f p.1)) vals)

/-- The sample-size validations shared by impulse and salt-and-pepper
noise (noise.py, lines 114-119 and 236-241): an error only when NEITHER
`sample_pct` nor `n_samples` is supplied, plus the individual range
checks. -/
def samplePairError (samplePct : Option Rat) (nSamples : Option Int) : Option String :=
  if samplePct = none ∧ nSamples = none then
    some ("Either sample_pct or n_samples must be provided.")
  else if (match samplePct with
      | some p => !(decide (0 < p) && decide (p < 100))
      | none => false) then
    some ("sample_pct must be between 0 and 100 (exclusive).")
  else if (match nSamples with
      | some n => decide (n ≤ 0)
      | none => false) then
    some ("n_samples must be a positive integer.")
  else none

/-- The magnitude validations of impulse noise (noise.py, lines 122-127):
an error only when NEITHER `impulse_mag` nor `impulse_pct` is supplied,
plus the individual range checks. -/
def magPairError (impulseMag impulsePct : Option Rat) : Option String :=
  if impulseMag = none ∧ impulsePct = none then
    some ("Either impulse_mag or impulse_pct must be provided.")
  else if (match impulseMag with
      | some m => decide (m < 0)
      | none => false) then
    some ("impulse_mag must be non-negative.")
  else if (match impulsePct with
      | some q => !(decide (0 < q) && decide (q ≤ 100))
      | none => false) then
    some ("impulse_pct must be between 0 and 100 (inclusive).")
  else none

/-- `add_impulse_noise_column` (noise.py, lines 75-200): validations in
source order, magnitude resolution, early exit on an empty table, then the
new DOUBLE column is added as a verbatim copy of the base column and the
selected rows are perturbed.  `noise` abstracts `base + uniform(-mag, mag)`
(floating point). -/
def add_impulse_noise_column (s : Eng) (base : String) (newname : Option String)
    (samplePct : Option Rat) (nSamples : Option Int) (impulseMag impulsePct : Option Rat)
    (perm : List Nat) (noise : Nat → Value) : Option String × Eng :=
  if !(hasCol s.table base) then
    (some (("Column ") ++ base ++ (" not found in the data.")), s)
  else
    let nn := newname.getD (("impulse_noise_") ++ base)
    if !(isIdent nn) then
      (some ("new_column_name must be a valid identifier (e.g., no spaces or special characters)."), s)
    else
      match samplePairError samplePct nSamples with
      | some e => (some e, s)
      | none =>
        match magPairError impulseMag impulsePct with
        | some e => (some e, s)
        | none =>
          match maxImpulseVal s.table base impulseMag impulsePct with
          | .error e => (some e, s)
          | .ok _ =>
            let rows := rowCount s.table
            if rows = 0 then (none, s)
            else
              let num := numSamplesToAlter nSamples samplePct rows
              if num = 0 then (none, s)
              else
                let t1 := s.table ++ [(nn, getColVals s.table base)]
                (none, { s with table := applyAtCol t1 nn (selectRowIds perm num) noise })

/-- Minimum and maximum of the integer cells of a column (`SELECT MIN, MAX`
over the numeric base column), `none` when no non-NULL numeric cell
exists. -/
def minMaxInts (vals : List Value) : Option (Int × Int) :=
  let ints := vals.filterMap (fun v => match v with
    | Value.vint n => some n
    | _ => none)
  match ints.min?, ints.max? with
  | some mn, some mx => some (mn, mx)
  | _, _ => none

/-- `add_salt_pepper_noise_column` (noise.py, lines 202-317): like impulse
noise but each selected row of the copied column is overwritten with the
base column's minimum (pepper) or maximum (salt), chosen by the random
oracle `pick`. -/
def add_salt_pepper_noise_column (s : Eng) (base : String) (newname : Option String)
    (samplePct : Option Rat) (nSamples : Option Int) (perm : List Nat) (pick : Nat → Bool) :
    Option String × Eng :=
  if !(hasCol s.table base) then
    (some (("Column ") ++ base ++ (" not found in the data.")), s)
  else
    let nn := newname.getD (("salt_pepper_noise_") ++ base)
    if !(isIdent nn) then
      (some ("new_column_name must be a valid identifier (e.g., no spaces or special characters)."), s)
    else
      match samplePairError samplePct nSamples with
      | some e => (some e, s)
      | none =>
        let rows := rowCount s.table
        if rows = 0 then (none, s)
        else if (match nSamples with
            | some n => decide (rows < n.toNat)
            | none => false) then
          (some ("n_samples cannot be greater than total rows."), s)
        else
          let num := numSamplesToAlter nSamples samplePct rows
          if num = 0 then (none, s)
          else
            match minMaxInts (getColVals s.table base) with
            | none => (some (("Could not calculate MIN/MAX for column ") ++ base ++ (".")), s)
            | some mm =>
              let t1 := s.table ++ [(nn, getColVals s.table base)]
              let f : Nat → Value := fun i => if pick i then Value.vint mm.2 else Value.vint mm.1
              (none, { s with table := applyAtCol t1 nn (selectRowIds perm num) f })

/-- `gaussian_column` (noise.py, lines 319-381): stage/adopt/cleanup with
an error handler whose cleanup is guarded by the column list captured
BEFORE staging — so the guard can never see the staged column. -/
def gaussian_column (s : Eng) (col temp : String) (draw : Nat → List Value)
    (fault cfault : Option String) : Option String × Eng :=
  if !(hasCol s.table col) then
    (some (("Column ") ++ col ++ (" not found in the data.")), s)
  else
    let validBefore := s.table.map (fun c => lowerStr c.1)
    let tn := ("noised_") ++ col
    match add_gaussian_noise_column s col (some tn) temp draw with
    | (some e, s1) =>
      if validBefore.contains (lowerStr tn) then
        (some e, (dropOpF cfault [tn] s1).2)
      else (some e, s1)
    | (none, s1) =>
      match replace_columnF fault s1 [col] [tn] with
      | (some e, s2) =>
        if validBefore.contains (lowerStr tn) then
          (some e, (dropOpF cfault [tn] s2).2)
        else (some e, s2)
      | (none, s2) => dropOp [tn] s2

/-- `impulse_column` (noise.py, lines 383-467): stage/adopt/cleanup; the
handler drops the staged column unconditionally, swallows any cleanup
failure, and re-raises the original error. -/
def impulse_column (s : Eng) (col : String) (samplePct : Option Rat) (nSamples : Option Int)
    (impulseMag impulsePct : Option Rat) (perm : List Nat) (noise : Nat → Value)
    (fault cfault : Option String) : Option String × Eng :=
  if !(hasCol s.table col) then
    (some (("Column ") ++ col ++ (" not found in the data.")), s)
  else
    let tn := ("noised_impulse_") ++ col
    match add_impulse_noise_column s col (some tn) samplePct nSamples impulseMag impulsePct perm noise with
    | (some e, s1) => (some e, (dropOpF cfault [tn] s1).2)
    | (none, s1) =>
      match replace_columnF fault s1 [col] [tn] with
      | (some e, s2) => (some e, (dropOpF cfault [tn] s2).2)
      | (none, s2) => dropOp [tn] s2

/-- `salt_pepper_column` (noise.py, lines 469-537): same protected chain as
`impulse_column`. -/
def salt_pepper_column (s : Eng) (col : String) (samplePct : Option Rat) (nSamples : Option Int)
    (perm : List Nat) (pick : Nat → Bool) (fault cfault : Option String) : Option String × Eng :=
  if !(hasCol s.table col) then
    (some (("Column ") ++ col ++ (" not found in the data.")), s)
  else
    let tn := ("noised_salt_pepper_") ++ col
    match add_salt_pepper_noise_column s col (some tn) samplePct nSamples perm pick with
    | (some e, s1) => (some e, (dropOpF cfault [tn] s1).2)
    | (none, s1) =>
      match replace_columnF fault s1 [col] [tn] with
      | (some e, s2) => (some e, (dropOpF cfault [tn] s2).2)
      | (none, s2) => dropOp [tn] s2

/- ===== ranges.py ===== -/

/-- The bucket index assigned to value `v` (ranges.py, lines 114-116):
Python floor division `(int(val) - effective_min) // size`, clamped into
`[0, num - 1]`. -/
def bucketIdx (emin size num v : Int) : Int :=
  max 0 (min ((v - emin).fdiv size) (num - 1))

/-- Start of the bucket with index `i` (ranges.py, line 117). -/
def bucketStartI (emin size i : Int) : Int := emin + i * size

/-- End of the bucket with index `i` (ranges.py, lines 118-121): one below
the next start, clamped to the column maximum on the final bucket. -/
def bucketEndI (emin mx size num i : Int) : Int :=
  let en := emin + i * size + size - 1
  if i = num - 1 ∧ mx < en then mx else en

/-- Effective bucket size and count (ranges.py, lines 83-99): from
`num_ranges` the size is `ceil(span / num_ranges)`, from `range_size` the
count is `ceil(span / range_size)` (both by the `(a + b - 1) // b` idiom);
degenerate spans collapse to one unit bucket, and a zero size is repaired
to `(1, span)`. -/
def rangeSizeNum (span : Int) (numRanges rangeSize : Option Int) : Int × Int :=
  let p : Int × Int :=
    if span ≤ 0 then (1, 1)
    else
      match numRanges with
      | some nr => ((span + nr - 1).fdiv nr, nr)
      | none =>
        match rangeSize with
        | some rs => (rs, (span + rs - 1).fdiv rs)
        | none => (0, 0)
  if p.1 = 0 then (1, span) else p

/-- Min/max of the non-NULL cells plus the effective minimum and derived
bucket parameters of `add_integer_range_column` (ranges.py, lines 61-101):
errors when the column has no non-NULL numeric cell. -/
def intRangeSetup (vals : List (Option Int)) (numRanges rangeSize : Option Int)
    (minRangeStart : Option Int) : Except String (Int × Int × Int × Int) :=
  let nn := vals.filterMap id
  match nn.min?, nn.max? with
  | some mn, some mxRaw =>
    let emin := minRangeStart.getD mn
    let mx := mxRaw
    let span := mx - emin + 1
    let sn := rangeSizeNum span numRanges rangeSize
    .ok (emin, mx, sn.1, sn.2)
  | _, _ => .error ("Could not calculate MIN/MAX for column. Is it all NULLs or non-numeric?")

/-- The per-row output of the integer bucketing loop (ranges.py, lines
108-126): NULL rows stay NULL, others get the bucket start or the
`[start, end]` pair of their bucket. -/
def intRangeCalc (vals : List (Option Int)) (numRanges rangeSize : Option Int)
    (minRangeStart : Option Int) (onlyStart : Bool) : Except String (List Value) :=
  (intRangeSetup vals numRanges rangeSize minRangeStart).map (fun q =>
    let emin := q.1
    let mx := q.2.1
    let size := q.2.2.1
    let num := q.2.2.2
    vals.map (fun ov =>
      match ov with
      | none => Value.vnull
      | some v =>
        let i := bucketIdx emin size num v
        if onlyStart then Value.vint (bucketStartI emin size i)
        else Value.vpair (bucketStartI emin size i) (bucketEndI emin mx size num i)))

/-- The `Option Int` view of a numeric column's cells: NULL (and any
non-integer cell) maps to `none`, matching the NaN skip of the Python
loop. -/
def colInts (vals : List Value) : List (Option Int) :=
  vals.map (fun v => match v with
    | Value.vint n => some n
    | _ => none)

/-- `add_integer_range_column` (ranges.py, lines 11-151): validate, bucket
every row of the base column in Python, and attach the bucket vector via
the positional-join `add_column`. -/
def add_integer_range_column (s : Eng) (base : String) (newname : Option String)
    (numRanges rangeSize : Option Int) (onlyStart : Bool) (minRangeStart : Option Int)
    (temp : String) : Option String × Eng :=
  if !(hasCol s.table base) then
    (some (("Column ") ++ base ++ (" not found in the data.")), s)
  else
    let nn := newname.getD (("integer_range_") ++ base)
    if !(isIdent nn) then
      (some ("new_column_name must be a valid identifier (e.g., no spaces or special characters)."), s)
    else if (numRanges = none ∧ rangeSize = none) ∨ (numRanges ≠ none ∧ rangeSize ≠ none) then
      (some ("Exactly one of num_ranges or range_size must be provided."), s)
    else if (match numRanges with
        | some k => decide (k ≤ 0)
        | none => false) then
      (some ("num_ranges must be a positive integer."), s)
    else if (match rangeSize with
        | some k => decide (k ≤ 0)
        | none => false) then
      (some ("range_size must be a positive integer."), s)
    else
      match intRangeCalc (colInts (getColVals s.table base)) numRanges rangeSize minRangeStart onlyStart with
      | .error e => (some e, s)
      | .ok vec => add_column s vec nn temp

/-- `add_float_range_column` (ranges.py, lines 257-410): same shape as the
integer variant; the floating-point bucket arithmetic (epsilon-adjusted
ends, decimal rounding) is abstracted by the per-cell oracle `g`, which
covers everything the row-count claims need. -/
def add_float_range_column (s : Eng) (base : String) (newname : Option String)
    (numRanges : Option Int) (rangeSize : Option Rat) (g : Value → Value) (temp : String) :
    Option String × Eng :=
  if !(hasCol s.table base) then
    (some (("Column ") ++ base ++ (" not found in the data.")), s)
  else
    let nn := newname.getD (("float_range_") ++ base)
    if !(isIdent nn) then
      (some ("new_column_name must be a valid identifier (e.g., no spaces or special characters)."), s)
    else if (numRanges = none ∧ rangeSize = none) ∨ (numRanges ≠ none ∧ rangeSize ≠ none) then
      (some ("Exactly one of num_ranges or range_size must be provided."), s)
    else
      add_column s ((getColVals s.table base).map g) nn temp

/-- `integer_range_column` (ranges.py, lines 412-486): the protected
stage/adopt/cleanup chain over integer range bucketing. -/
def integer_range_column (s : Eng) (base : String) (numRanges rangeSize : Option Int)
    (onlyStart : Bool) (minRangeStart : Option Int) (temp : String)
    (fault cfault : Option String) : Option String × Eng :=
  if !(hasCol s.table base) then
    (some (("Column ") ++ base ++ (" not found in the data.")), s)
  else
    let tn := ("range_") ++ base
    match add_integer_range_column s base (some tn) numRanges rangeSize onlyStart minRangeStart temp with
    | (some e, s1) => (some e, (dropOpF cfault [tn] s1).2)
    | (none, s1) =>
      match replace_columnF fault s1 [base] [tn] with
      | (some e, s2) => (some e, (dropOpF cfault [tn] s2).2)
      | (none, s2) => dropOp [tn] s2

/- ===== synthetic.py ===== -/

/-- The model of the `TypeError` the interpreter raises when a call site
passes `verbose=` to a method that accepts no such keyword (the exact
interpreter text is abstracted by this marker). -/
def verboseKwargMsg (fn : String) : String :=
  fn ++ ("() got an unexpected keyword argument verbose")

/-- `add_syn_date_column` (synthetic.py, lines 14-231): validate the name
and bound arguments and exit early on an empty table.  On a non-empty
table the generated date vector is attached by the call
`self.add_column(..., verbose=verbose)` (synthetic.py, line 217) — but
`add_column` accepts no `verbose` keyword, so that call unconditionally
raises `TypeError` before any column is added and the error propagates
(the `except` at lines 224-228 re-raises); the Faker oracle `gen` is
therefore never observable in the state.  The parameter is kept so the
embedding records what the generation loop would feed `add_column`. -/
def add_syn_date_column (s : Eng) (base : Option String) (newname : Option String)
    (startDate endDate : Option String) (gen : Nat → Value) (temp : String) :
    Option String × Eng :=
  if newname = none ∧ base = none then
    (some ("If new_column_name is not provided, base_column must be provided to derive a name."), s)
  else
    let nn := match newname with
      | some n => n
      | none => ("syn_") ++ base.getD ("")
    if !(isIdent nn) then
      (some ("new_column_name must be a valid identifier (e.g., no spaces or special characters)."), s)
    else if (match base with
        | some b => !(hasCol s.table b)
        | none => false) then
      (some ("Base column not found in the data."), s)
    else if startDate = none ∧ endDate = none then
      (some ("Either start_date or end_date (or both) must be provided to define a date range."), s)
    else if rowCount s.table = 0 then (none, s)
    else (some (verboseKwargMsg ("add_column")), s)

/-- `syn_date_column` (synthetic.py, lines 233-323): the stage/adopt/cleanup
chain over synthetic date substitution.  Both the adopt call
(synthetic.py, lines 289-293) and the cleanup drop (lines 300 and 313)
pass `verbose=` to `replace_column`/`drop_column`, which accept no such
keyword, so adoption always raises `TypeError` when reached and the
handler cleanup drop always raises `TypeError` (swallowed by the nested
`try`, after which the original error is re-raised with the state
untouched by the failed drop). -/
def syn_date_column (s : Eng) (base : String) (startDate endDate : Option String)
    (gen : Nat → Value) (temp : String) : Option String × Eng :=
  if !(hasCol s.table base) then
    (some (("Column ") ++ base ++ (" not found in the data.")), s)
  else
    let tn := ("_temp_syn_date_") ++ base
    match add_syn_date_column s (some base) (some tn) startDate endDate gen temp with
    | (some e, s1) => (some e, s1)
    | (none, s1) => (some (verboseKwargMsg ("replace_column")), s1)

/- ===== rows.py ===== -/

/-- The row filtering of the canonical table by the combined WHERE clause,
abstracted as a per-row-position predicate `keep` (the clause's value on
row i): every column keeps exactly the cells at kept positions. -/
def filterTableRows (t : Table) (keep : Nat → Bool) : Table :=
  t.map (fun c => (c.1, (c.2.enum.filter (fun p => keep p.1)).map (fun p => p.2)))

/-- Python `needle in hay` on strings, as a Bool over char lists. -/
def containsSub (needle : List Char) : List Char → Bool
  | [] => needle.isEmpty
  | c :: rest => List.isPrefixOf needle (c :: rest) || containsSub needle rest

/-- `filter_rows` (rows.py, lines 184-299).  The third component records
the Python return value (`true` = returned `self`).  An empty column list
returns the handle unchanged before any further validation; otherwise the
template/meta checks and exact-case column membership checks run, and the
surviving rows replace the canonical table. -/
def filter_rows (s : Eng) (baseColumns : List String) (condition metaStr : String)
    (keep : Nat → Bool) : Option String × Eng × Bool :=
  match baseColumns with
  | [] => (none, s, true)
  | cols =>
    if condition.isEmpty then (some ("condition must be a non-empty string."), s, true)
    else if metaStr.isEmpty then (some ("meta must be a non-empty string."), s, true)
    else if !(containsSub metaStr.data condition.data) then
      (some ("meta string not found in condition string."), s, true)
    else if !(cols.all (fun c => s.table.any (fun col => col.1 == c))) then
      (some ("Column not found in the data."), s, true)
    else (none, { s with table := filterTableRows s.table keep }, true)

/- ===== The column-level operations of the public surface, as one type ===== -/

/-- One column-level operation of the public surface: the retype, add,
drop, replace and rename primitives plus the masking, noise, range and
synthetic-date generators (both the staging `add_*` variants and the
column-replacing variants).  Randomness, casts, float arithmetic and
engine faults appear as explicit arguments of the constructors.
`age_range` with its `only_adult` row filter is the row-filtering member
of the family and is deliberately outside this type. -/
inductive ColOp where
  | opSetType (names : List String) (cast : Value → Value)
  | opAddColumn (vec : List Value) (name temp : String)
  | opDropColumn (names : List String)
  | opReplaceColumn (tgts srcs : List String)
  | opRenameColumn (olds news : List String)
  | opAddMasked (base : String) (newname : Option String) (maskLeft maskRight : Nat) (maskChar : String)
  | opMaskColumn (base : String) (maskLeft maskRight : Nat) (maskChar : String) (fault : Option String)
  | opAddMaskedMail (base : String) (newname : Option String) (genMask : Option (Value → Value)) (upds : List (Nat × Value))
  | opMaskMailColumn (base : String) (genMask : Option (Value → Value)) (upds : List (Nat × Value)) (fault : Option String)
  | opAddGaussian (base : String) (newname : Option String) (temp : String) (draw : Nat → List Value)
  | opGaussianColumn (col temp : String) (draw : Nat → List Value) (fault cfault : Option String)
  | opAddImpulse (base : String) (newname : Option String) (samplePct : Option Rat) (nSamples : Option Int) (impulseMag impulsePct : Option Rat) (perm : List Nat) (noise : Nat → Value)
  | opImpulseColumn (col : String) (samplePct : Option Rat) (nSamples : Option Int) (impulseMag impulsePct : Option Rat) (perm : List Nat) (noise : Nat → Value) (fault cfault : Option String)
  | opAddSaltPepper (base : String) (newname : Option String) (samplePct : Option Rat) (nSamples : Option Int) (perm : List Nat) (pick : Nat → Bool)
  | opSaltPepperColumn (col : String) (samplePct : Option Rat) (nSamples : Option Int) (perm : List Nat) (pick : Nat → Bool) (fault cfault : Option String)
  | opAddIntRange (base : String) (newname : Option String) (numRanges rangeSize : Option Int) (onlyStart : Bool) (minRangeStart : Option Int) (temp : String)
  | opIntRangeColumn (base : String) (numRanges rangeSize : Option Int) (onlyStart : Bool) (minRangeStart : Option Int) (temp : String) (fault cfault : Option String)
  | opAddFloatRange (base : String) (newname : Option String) (numRanges : Option Int) (rangeSize : Option Rat) (g : Value → Value) (temp : String)
  | opAddSynDate (base newname : Option String) (startDate endDate : Option String) (gen : Nat → Value) (temp : String)
  | opSynDateColumn (base : String) (startDate endDate : Option String) (gen : Nat → Value) (temp : String)

/-- Dispatch of a `ColOp` to its model function. -/
def applyOp (op : ColOp) (s : Eng) : Option String × Eng :=
  match op with
  | .opSetType names cast => set_column_type s names cast
  | .opAddColumn vec name temp => add_column s vec name temp
  | .opDropColumn names => dropOp names s
  | .opReplaceColumn tgts srcs => replace_column s tgts srcs
  | .opRenameColumn olds news => rename_column s olds news
  | .opAddMasked base nn l r mc => add_masked_column s base nn l r mc
  | .opMaskColumn base l r mc fault => mask_column s base l r mc fault
  | .opAddMaskedMail base nn f upds => add_masked_mail_column s base nn f upds
  | .opMaskMailColumn base f upds fault => mask_mail_column s base f upds fault
  | .opAddGaussian base nn temp draw => add_gaussian_noise_column s base nn temp draw
  | .opGaussianColumn col temp draw fault cfault => gaussian_column s col temp draw fault cfault
  | .opAddImpulse base nn spct nsamp imag ipct perm noise =>
      add_impulse_noise_column s base nn spct nsamp imag ipct perm noise
  | .opImpulseColumn col spct nsamp imag ipct perm noise fault cfault =>
      impulse_column s col spct nsamp imag ipct perm noise fault cfault
  | .opAddSaltPepper base nn spct nsamp perm pick =>
      add_salt_pepper_noise_column s base nn spct nsamp perm pick
  | .opSaltPepperColumn col spct nsamp perm pick fault cfault =>
      salt_pepper_column s col spct nsamp perm pick fault cfault
  | .opAddIntRange base nn nr rs os mrs temp =>
      add_integer_range_column s base nn nr rs os mrs temp
  | .opIntRangeColumn base nr rs os mrs temp fault cfault =>
      integer_range_column s base nr rs os mrs temp fault cfault
  | .opAddFloatRange base nn nr rs g temp => add_float_range_column s base nn nr rs g temp
  | .opAddSynDate base nn sd ed gen temp => add_syn_date_column s base nn sd ed gen temp
  | .opSynDateColumn base sd ed gen temp =>
      syn_date_column s base sd ed gen temp

/- ===== basic facts about tables ===== -/

lemma wf_iff (t : Table) : wfTable t = true ↔ ∀ c ∈ t, c.2.length = rowCount t := by
  simp [wfTable, List.all_eq_true]

lemma rowCount_append_single (t : Table) (x : String × List Value) (h : x.2.length = rowCount t) :
    rowCount (t ++ [x]) = rowCount t := by
  cases t with
  | nil => simpa [rowCount] using h
  | cons c cs => simp [rowCount]

lemma wf_append_single (t : Table) (x : String × List Value) (h : x.2.length = rowCount t)
    (hw : wfTable t = true) : wfTable (t ++ [x]) = true := by
  rw [wf_iff] at hw ⊢
  intro c hc
  rw [rowCount_append_single t x h]
  rcases List.mem_append.mp hc with h1 | h2
  · exact hw c h1
  · simp only [List.mem_singleton] at h2
    subst h2
    exact h

lemma rowCount_map_mem (t : Table) (g : (String × List Value) → (String × List Value))
    (hg : ∀ c ∈ t, (g c).2.length = c.2.length) : rowCount (t.map g) = rowCount t := by
  cases t with
  | nil => rfl
  | cons c cs => simpa [rowCount] using hg c (by simp)

lemma wf_map_mem (t : Table) (g : (String × List Value) → (String × List Value))
    (hg : ∀ c ∈ t, (g c).2.length = c.2.length) (hw : wfTable t = true) :
    wfTable (t.map g) = true := by
  rw [wf_iff] at hw ⊢
  intro c hc
  rw [rowCount_map_mem t g hg]
  obtain ⟨d, hd, rfl⟩ := List.mem_map.mp hc
  rw [hg d hd]
  exact hw d hd

lemma getColVals_length (t : Table) (nm : String) (hw : wfTable t = true)
    (hc : hasCol t nm = true) : (getColVals t nm).length = rowCount t := by
  unfold hasCol at hc
  unfold getColVals
  cases hfind : findCol t nm with
  | none => rw [hfind] at hc; simp at hc
  | some c =>
    have hmem : c ∈ t := List.mem_of_find?_eq_some hfind
    rw [wf_iff] at hw
    simpa [hfind] using hw c hmem

/-- Row-count preservation plus well-formedness preservation of an
engine-state transformer, on its successful runs. -/
def Pres (f : Eng → Option String × Eng) : Prop :=
  ∀ s, wfTable s.table = true → (f s).1 = none →
    rowCount (f s).2.table = rowCount s.table ∧ wfTable (f s).2.table = true

lemma length_foldl_set {α : Type} (l : List α) (ix : α → Nat) (vx : α → Value) :
    ∀ vals : List Value, (l.foldl (fun acc x => acc.set (ix x) (vx x)) vals).length = vals.length := by
  induction l with
  | nil => intro vals; rfl
  | cons x xs ih => intro vals; simpa [List.foldl_cons] using (ih (vals.set (ix x) (vx x))).trans (by simp)

lemma updateColWith_pres (name : String) (f : List Value → List Value)
    (hf : ∀ l, (f l).length = l.length) (t : Table) :
    rowCount (updateColWith t name f) = rowCount t ∧
      (wfTable t = true → wfTable (updateColWith t name f) = true) := by
  have hg : ∀ c ∈ t, ((fun c => if lowerStr c.1 == lowerStr name then (c.1, f c.2) else c) c).2.length
      = c.2.length := by
    intro c _
    by_cases hb : lowerStr c.1 == lowerStr name <;> simp [hb, hf]
  exact ⟨rowCount_map_mem t _ hg, fun hw => wf_map_mem t _ hg hw⟩

lemma pres_add_column (vec : List Value) (name temp : String) :
    Pres (fun s => add_column s vec name temp) := by
  intro s hw h
  unfold add_column at h ⊢
  by_cases hid : isIdent name
  · simp only [hid, if_true] at h ⊢
    by_cases hlen : vec.length = rowCount s.table
    · simp only [hlen, if_true] at h ⊢
      exact ⟨rowCount_append_single _ _ hlen, wf_append_single _ _ hlen hw⟩
    · simp [hlen] at h
  · simp [hid] at h

lemma pres_set_column_type (names : List String) (cast : Value → Value) :
    Pres (fun s => set_column_type s names cast) := by
  intro s hw h
  simp only [set_column_type] at h ⊢
  split_ifs at h ⊢
  · exact ⟨rfl, hw⟩
  · have hg : ∀ c ∈ s.table,
        ((fun c => if (names.any fun n => lowerStr n == lowerStr c.1) = true then (c.1, c.2.map cast) else c) c).2.length
          = c.2.length := by
      intro c _
      by_cases hb : (names.any fun n => lowerStr n == lowerStr c.1) = true <;> simp [hb]
    exact ⟨rowCount_map_mem _ _ hg, wf_map_mem _ _ hg hw⟩

lemma pres_dropOp (names : List String) : Pres (dropOp names) := by
  intro s hw h
  simp only [dropOp, drop_column] at h ⊢
  match names with
  | [] => exact ⟨rfl, hw⟩
  | n :: ns =>
    simp only [] at h ⊢
    split_ifs at h ⊢ with h1 h2
    have hrc : rowCount (s.table.filter (fun c => !(((n :: ns).map lowerStr).contains (lowerStr c.1)))) = rowCount s.table := by
      cases hk : s.table.filter (fun c => !(((n :: ns).map lowerStr).contains (lowerStr c.1))) with
      | nil => rw [hk] at h2; simp at h2
      | cons c cs =>
        have hmem : c ∈ s.table := List.mem_of_mem_filter (by rw [hk]; simp)
        rw [wf_iff] at hw
        simpa [rowCount] using hw c hmem
    refine ⟨hrc, ?_⟩
    rw [wf_iff]
    intro c hc
    rw [hrc]
    rw [wf_iff] at hw
    exact hw c (List.mem_of_mem_filter hc)

lemma findIdx?_lt_length {α : Type} {p : α → Bool} {l : List α} {i : Nat}
    (h : l.findIdx? p = some i) : i < l.length :=
  (List.findIdx?_eq_some_iff_findIdx_eq.mp h).1

lemma pres_replace_column (tgts srcs : List String) :
    Pres (fun s => replace_column s tgts srcs) := by
  intro s hw h
  simp only [replace_column] at h ⊢
  split_ifs at h ⊢ with h1 h2 h3
  have hg : ∀ c ∈ s.table, (replaceMapFn s.table tgts srcs c).2.length = c.2.length := by
    intro c hc
    unfold replaceMapFn
    cases hidx : (tgts.map lowerStr).findIdx? (fun x => x == lowerStr c.1) with
    | none => simp
    | some i =>
      have hi : i < srcs.length := by
        have := findIdx?_lt_length hidx
        simp only [List.length_map] at this
        omega
      have hsrcmem : srcs.getD i ("") ∈ srcs := by
        rw [List.getD_eq_getElem srcs ("") hi]
        exact List.getElem_mem hi
      have hhas : hasCol s.table (srcs.getD i ("")) = true := by
        rw [List.all_eq_true] at h3
        exact h3 _ (List.mem_append.mpr (Or.inr hsrcmem))
      have hlen := getColVals_length s.table (srcs.getD i ("")) hw hhas
      rw [wf_iff] at hw
      simp only []
      rw [hlen, hw c hc]
  exact ⟨rowCount_map_mem _ _ hg, wf_map_mem _ _ hg hw⟩

lemma renameOne_pres (t : Table) (o n : String) :
    rowCount (renameOne t o n) = rowCount t ∧
      (wfTable t = true → wfTable (renameOne t o n) = true) := by
  have hg : ∀ c ∈ t,
      ((fun c => if lowerStr c.1 == lowerStr o then (n, c.2) else c) c).2.length = c.2.length := by
    intro c _
    by_cases hb : lowerStr c.1 == lowerStr o <;> simp [hb]
  exact ⟨rowCount_map_mem _ _ hg, fun hw => wf_map_mem _ _ hg hw⟩

lemma foldl_renameOne_pres (l : List (String × String)) :
    ∀ t : Table, rowCount (l.foldl (fun t p => renameOne t p.1 p.2) t) = rowCount t ∧
      (wfTable t = true → wfTable (l.foldl (fun t p => renameOne t p.1 p.2) t) = true) := by
  induction l with
  | nil => intro t; exact ⟨rfl, fun hw => hw⟩
  | cons p ps ih =>
    intro t
    have h1 := renameOne_pres t p.1 p.2
    have h2 := ih (renameOne t p.1 p.2)
    exact ⟨by simpa [h1.1] using h2.1, fun hw => h2.2 (h1.2 hw)⟩

lemma pres_rename_column (olds news : List String) :
    Pres (fun s => rename_column s olds news) := by
  intro s hw h
  simp only [rename_column] at h ⊢
  split_ifs at h ⊢
  · exact ⟨rfl, hw⟩
  · have := foldl_renameOne_pres (olds.zip news) s.table
    exact ⟨this.1, this.2 hw⟩

lemma pres_add_masked_column (base : String) (nn : Option String) (l r : Nat) (mc : String) :
    Pres (fun s => add_masked_column s base nn l r mc) := by
  intro s hw h
  simp only [add_masked_column] at h ⊢
  split_ifs at h ⊢ with h1 h2 h3 h4 h5
  have hlen : ((getColVals s.table base).map (maskCell l r mc)).length = rowCount s.table := by
    rw [List.length_map]
    exact getColVals_length s.table base hw (by simpa using h4)
  exact ⟨rowCount_append_single _ _ hlen, wf_append_single _ _ hlen hw⟩

lemma updateNullCells_pres (t : Table) (name basename : String) (f : Value → Value) :
    rowCount (updateNullCells t name basename f) = rowCount t ∧
      (wfTable t = true → wfTable (updateNullCells t name basename f) = true) := by
  exact updateColWith_pres name _ (by intro lvals; simp) t

lemma applySetsCol_pres (t : Table) (name : String) (upds : List (Nat × Value)) :
    rowCount (applySetsCol t name upds) = rowCount t ∧
      (wfTable t = true → wfTable (applySetsCol t name upds) = true) := by
  refine updateColWith_pres name _ ?_ t
  intro lvals
  exact length_foldl_set upds (fun p => p.1) (fun p => p.2) lvals

lemma pres_add_masked_mail_column (base : String) (nn : Option String)
    (genMask : Option (Value → Value)) (upds : List (Nat × Value)) :
    Pres (fun s => add_masked_mail_column s base nn genMask upds) := by
  have key : ∀ s : Eng, wfTable s.table = true → ∀ t1 : Table,
      rowCount t1 = rowCount s.table → wfTable t1 = true →
      ∀ t2 : Table, (t2 = t1 ∨ ∃ f, t2 = updateNullCells t1 (nn.getD (("masked_") ++ base)) base f) →
      rowCount (applySetsCol t2 (nn.getD (("masked_") ++ base)) upds) = rowCount s.table ∧
        wfTable (applySetsCol t2 (nn.getD (("masked_") ++ base)) upds) = true := by
    intro s _ t1 hrc hwf t2 ht2
    have h2 : rowCount t2 = rowCount t1 ∧ wfTable t2 = true := by
      rcases ht2 with rfl | ⟨f, rfl⟩
      · exact ⟨rfl, hwf⟩
      · have := updateNullCells_pres t1 (nn.getD (("masked_") ++ base)) base f
        exact ⟨this.1, this.2 hwf⟩
    have h3 := applySetsCol_pres t2 (nn.getD (("masked_") ++ base)) upds
    exact ⟨h3.1.trans (h2.1.trans hrc), h3.2 h2.2⟩
  intro s hw h
  have hlen : (List.replicate (rowCount s.table) Value.vnull).length = rowCount s.table := by simp
  have hrc := rowCount_append_single s.table
    (nn.getD (("masked_") ++ base), List.replicate (rowCount s.table) Value.vnull) hlen
  have hwf2 := wf_append_single s.table
    (nn.getD (("masked_") ++ base), List.replicate (rowCount s.table) Value.vnull) hlen hw
  cases genMask with
  | none =>
    simp only [add_masked_mail_column] at h ⊢
    split_ifs at h ⊢ with h1 h2 h3 h4 h5
    · exact key s hw s.table rfl hw s.table (Or.inl rfl)
    · exact key s hw _ hrc hwf2 _ (Or.inl rfl)
  | some f =>
    simp only [add_masked_mail_column] at h ⊢
    split_ifs at h ⊢ with h1 h2 h3 h4 h5
    · exact key s hw s.table rfl hw _ (Or.inr ⟨f, rfl⟩)
    · exact key s hw _ hrc hwf2 _ (Or.inr ⟨f, rfl⟩)

lemma pres_add_gaussian (base : String) (nn : Option String) (temp : String)
    (draw : Nat → List Value) :
    Pres (fun s => add_gaussian_noise_column s base nn temp draw) := by
  intro s hw h
  simp only [add_gaussian_noise_column] at h ⊢
  split_ifs at h ⊢
  exact pres_add_column _ _ _ s hw h

lemma applyAtCol_pres (t : Table) (name : String) (ids : List Nat) (f : Nat → Value) :
    rowCount (applyAtCol t name ids f) = rowCount t ∧
      (wfTable t = true → wfTable (applyAtCol t name ids f) = true) := by
  refine updateColWith_pres name _ ?_ t
  intro lvals
  exact length_foldl_set ids.enum (fun p => p.2) (fun p => f p.1) lvals

lemma pres_add_impulse (base : String) (nn0 : Option String) (spct : Option Rat)
    (nsamp : Option Int) (imag ipct : Option Rat) (perm : List Nat) (noise : Nat → Value) :
    Pres (fun s => add_impulse_noise_column s base nn0 spct nsamp imag ipct perm noise) := by
  intro s hw h
  by_cases hbase : hasCol s.table base = true
  · by_cases hid : isIdent (nn0.getD (("impulse_noise_") ++ base)) = true
    · simp only [add_impulse_noise_column] at h ⊢
      rcases hv1 : samplePairError spct nsamp with _ | e
      rotate_left
      · simp [hbase, hid, hv1] at h
      rcases hv2 : magPairError imag ipct with _ | e
      rotate_left
      · simp [hbase, hid, hv1, hv2] at h
      rcases hmi : maxImpulseVal s.table base imag ipct with e | mag
      · simp [hbase, hid, hv1, hv2, hmi] at h
      simp only [hbase, hid, hv1, hv2, hmi, Bool.not_true, Bool.false_eq_true, if_false] at h ⊢
      split_ifs at h ⊢
      · exact ⟨rfl, hw⟩
      · exact ⟨rfl, hw⟩
      · have hlen : (getColVals s.table base).length = rowCount s.table :=
          getColVals_length _ _ hw hbase
        have hrc := rowCount_append_single s.table
          (nn0.getD (("impulse_noise_") ++ base), getColVals s.table base) hlen
        have hwf2 := wf_append_single s.table
          (nn0.getD (("impulse_noise_") ++ base), getColVals s.table base) hlen hw
        have happ := applyAtCol_pres
          (s.table ++ [(nn0.getD (("impulse_noise_") ++ base), getColVals s.table base)])
          (nn0.getD (("impulse_noise_") ++ base))
          (selectRowIds perm (numSamplesToAlter nsamp spct (rowCount s.table))) noise
        exact ⟨happ.1.trans hrc, happ.2 hwf2⟩
    · simp [add_impulse_noise_column, hbase, hid] at h
  · simp [add_impulse_noise_column, hbase] at h

lemma pres_add_salt_pepper (base : String) (nn0 : Option String) (spct : Option Rat)
    (nsamp : Option Int) (perm : List Nat) (pick : Nat → Bool) :
    Pres (fun s => add_salt_pepper_noise_column s base nn0 spct nsamp perm pick) := by
  intro s hw h
  by_cases hbase : hasCol s.table base = true
  · by_cases hid : isIdent (nn0.getD (("salt_pepper_noise_") ++ base)) = true
    · simp only [add_salt_pepper_noise_column] at h ⊢
      rcases hv1 : samplePairError spct nsamp with _ | e
      rotate_left
      · simp [hbase, hid, hv1] at h
      rcases hmm : minMaxInts (getColVals s.table base) with _ | mm
      all_goals simp only [hbase, hid, hv1, hmm, Bool.not_true, Bool.false_eq_true, if_false] at h ⊢
      all_goals split_ifs at h ⊢
      all_goals try exact ⟨rfl, hw⟩
      · have hlen : (getColVals s.table base).length = rowCount s.table :=
          getColVals_length _ _ hw hbase
        have hrc := rowCount_append_single s.table
          (nn0.getD (("salt_pepper_noise_") ++ base), getColVals s.table base) hlen
        have hwf2 := wf_append_single s.table
          (nn0.getD (("salt_pepper_noise_") ++ base), getColVals s.table base) hlen hw
        have happ := applyAtCol_pres
          (s.table ++ [(nn0.getD (("salt_pepper_noise_") ++ base), getColVals s.table base)])
          (nn0.getD (("salt_pepper_noise_") ++ base))
          (selectRowIds perm (numSamplesToAlter nsamp spct (rowCount s.table)))
          (fun i => if pick i then Value.vint mm.2 else Value.vint mm.1)
        exact ⟨happ.1.trans hrc, happ.2 hwf2⟩
    · simp [add_salt_pepper_noise_column, hbase, hid] at h
  · simp [add_salt_pepper_noise_column, hbase] at h

lemma pres_add_int_range (base : String) (nn0 : Option String) (nr rs : Option Int)
    (os : Bool) (mrs : Option Int) (temp : String) :
    Pres (fun s => add_integer_range_column s base nn0 nr rs os mrs temp) := by
  intro s hw h
  simp only [add_integer_range_column] at h ⊢
  rcases hcalc : intRangeCalc (colInts (getColVals s.table base)) nr rs mrs os with e | vec
  all_goals simp only [hcalc] at h ⊢
  all_goals split_ifs at h ⊢
  exact pres_add_column _ _ _ s hw h

lemma pres_add_float_range (base : String) (nn0 : Option String) (nr : Option Int)
    (rs : Option Rat) (g : Value → Value) (temp : String) :
    Pres (fun s => add_float_range_column s base nn0 nr rs g temp) := by
  intro s hw h
  simp only [add_float_range_column] at h ⊢
  split_ifs at h ⊢
  exact pres_add_column _ _ _ s hw h

lemma pres_add_syn_date (base nn0 : Option String) (sd ed : Option String)
    (gen : Nat → Value) (temp : String) :
    Pres (fun s => add_syn_date_column s base nn0 sd ed gen temp) := by
  intro s hw h
  simp only [add_syn_date_column] at h ⊢
  split_ifs at h ⊢
  exact ⟨rfl, hw⟩

lemma pres_replace_columnF (fault : Option String) (tgts srcs : List String) :
    Pres (fun s => replace_columnF fault s tgts srcs) := by
  intro s hw h
  cases fault with
  | some m => simp [replace_columnF] at h
  | none => exact pres_replace_column tgts srcs s hw h

lemma pres_chain3 (stage adopt : Eng → Option String × Eng) (names : List String)
    (hstage : Pres stage) (hadopt : Pres adopt) :
    ∀ s s1 s2, wfTable s.table = true →
      stage s = (none, s1) → adopt s1 = (none, s2) → (dropOp names s2).1 = none →
      rowCount (dropOp names s2).2.table = rowCount s.table ∧
        wfTable (dropOp names s2).2.table = true := by
  intro s s1 s2 hw h1 h2 h3
  have p1 := hstage s hw (by rw [h1])
  rw [h1] at p1
  have p2 := hadopt s1 p1.2 (by rw [h2])
  rw [h2] at p2
  have p3 := pres_dropOp names s2 p2.2 h3
  exact ⟨p3.1.trans (p2.1.trans p1.1), p3.2⟩

lemma pres_mask_column (base : String) (l r : Nat) (mc : String) (fault : Option String) :
    Pres (fun s => mask_column s base l r mc fault) := by
  intro s hw h
  simp only [mask_column] at h ⊢
  rcases hst : add_masked_column s base (some (("masked_") ++ base)) l r mc with ⟨oe, s1⟩
  cases oe with
  | some e => simp [hst] at h
  | none =>
    simp only [hst] at h ⊢
    rcases had : replace_columnF fault s1 [base] [("masked_") ++ base] with ⟨oe2, s2⟩
    cases oe2 with
    | some e => simp [had] at h
    | none =>
      simp only [had] at h ⊢
      exact pres_chain3 _ _ _ (pres_add_masked_column base _ l r mc)
        (pres_replace_columnF fault _ _) s s1 s2 hw hst had h

lemma pres_mask_mail_column (base : String) (genMask : Option (Value → Value))
    (upds : List (Nat × Value)) (fault : Option String) :
    Pres (fun s => mask_mail_column s base genMask upds fault) := by
  intro s hw h
  simp only [mask_mail_column] at h ⊢
  rcases hst : add_masked_mail_column s base (some (("masked_") ++ base)) genMask upds with ⟨oe, s1⟩
  cases oe with
  | some e => simp [hst] at h
  | none =>
    simp only [hst] at h ⊢
    rcases had : replace_columnF fault s1 [base] [("masked_") ++ base] with ⟨oe2, s2⟩
    cases oe2 with
    | some e => simp [had] at h
    | none =>
      simp only [had] at h ⊢
      exact pres_chain3 _ _ _ (pres_add_masked_mail_column base _ genMask upds)
        (pres_replace_columnF fault _ _) s s1 s2 hw hst had h

lemma pres_gaussian_column (col temp : String) (draw : Nat → List Value)
    (fault cfault : Option String) :
    Pres (fun s => gaussian_column s col temp draw fault cfault) := by
  intro s hw h
  by_cases hbase : hasCol s.table col = true
  · simp only [gaussian_column, hbase, Bool.not_true, Bool.false_eq_true, if_false] at h ⊢
    rcases hst : add_gaussian_noise_column s col (some (("noised_") ++ col)) temp draw with ⟨oe, s1⟩
    cases oe with
    | some e =>
      simp only [hst] at h
      split_ifs at h
    | none =>
      simp only [hst] at h ⊢
      rcases had : replace_columnF fault s1 [col] [("noised_") ++ col] with ⟨oe2, s2⟩
      cases oe2 with
      | some e =>
        simp only [had] at h
        split_ifs at h
      | none =>
        simp only [had] at h ⊢
        exact pres_chain3 _ _ _ (pres_add_gaussian col _ temp draw)
          (pres_replace_columnF fault _ _) s s1 s2 hw hst had h
  · simp [gaussian_column, hbase] at h

lemma pres_impulse_column (col : String) (spct : Option Rat) (nsamp : Option Int)
    (imag ipct : Option Rat) (perm : List Nat) (noise : Nat → Value)
    (fault cfault : Option String) :
    Pres (fun s => impulse_column s col spct nsamp imag ipct perm noise fault cfault) := by
  intro s hw h
  by_cases hbase : hasCol s.table col = true
  · simp only [impulse_column, hbase, Bool.not_true, Bool.false_eq_true, if_false] at h ⊢
    rcases hst : add_impulse_noise_column s col (some (("noised_impulse_") ++ col)) spct nsamp imag ipct perm noise with ⟨oe, s1⟩
    cases oe with
    | some e => simp [hst] at h
    | none =>
      simp only [hst] at h ⊢
      rcases had : replace_columnF fault s1 [col] [("noised_impulse_") ++ col] with ⟨oe2, s2⟩
      cases oe2 with
      | some e => simp [had] at h
      | none =>
        simp only [had] at h ⊢
        exact pres_chain3 _ _ _ (pres_add_impulse col _ spct nsamp imag ipct perm noise)
          (pres_replace_columnF fault _ _) s s1 s2 hw hst had h
  · simp [impulse_column, hbase] at h

lemma pres_salt_pepper_column (col : String) (spct : Option Rat) (nsamp : Option Int)
    (perm : List Nat) (pick : Nat → Bool) (fault cfault : Option String) :
    Pres (fun s => salt_pepper_column s col spct nsamp perm pick fault cfault) := by
  intro s hw h
  by_cases hbase : hasCol s.table col = true
  · simp only [salt_pepper_column, hbase, Bool.not_true, Bool.false_eq_true, if_false] at h ⊢
    rcases hst : add_salt_pepper_noise_column s col (some (("noised_salt_pepper_") ++ col)) spct nsamp perm pick with ⟨oe, s1⟩
    cases oe with
    | some e => simp [hst] at h
    | none =>
      simp only [hst] at h ⊢
      rcases had : replace_columnF fault s1 [col] [("noised_salt_pepper_") ++ col] with ⟨oe2, s2⟩
      cases oe2 with
      | some e => simp [had] at h
      | none =>
        simp only [had] at h ⊢
        exact pres_chain3 _ _ _ (pres_add_salt_pepper col _ spct nsamp perm pick)
          (pres_replace_columnF fault _ _) s s1 s2 hw hst had h
  · simp [salt_pepper_column, hbase] at h

lemma pres_integer_range_column (base : String) (nr rs : Option Int) (os : Bool)
    (mrs : Option Int) (temp : String) (fault cfault : Option String) :
    Pres (fun s => integer_range_column s base nr rs os mrs temp fault cfault) := by
  intro s hw h
  by_cases hbase : hasCol s.table base = true
  · simp only [integer_range_column, hbase, Bool.not_true, Bool.false_eq_true, if_false] at h ⊢
    rcases hst : add_integer_range_column s base (some (("range_") ++ base)) nr rs os mrs temp with ⟨oe, s1⟩
    cases oe with
    | some e => simp [hst] at h
    | none =>
      simp only [hst] at h ⊢
      rcases had : replace_columnF fault s1 [base] [("range_") ++ base] with ⟨oe2, s2⟩
      cases oe2 with
      | some e => simp [had] at h
      | none =>
        simp only [had] at h ⊢
        exact pres_chain3 _ _ _ (pres_add_int_range base _ nr rs os mrs temp)
          (pres_replace_columnF fault _ _) s s1 s2 hw hst had h
  · simp [integer_range_column, hbase] at h

lemma pres_syn_date_column (base : String) (sd ed : Option String) (gen : Nat → Value)
    (temp : String) :
    Pres (fun s => syn_date_column s base sd ed gen temp) := by
  intro s hw h
  by_cases hbase : hasCol s.table base = true
  · simp only [syn_date_column, hbase, Bool.not_true, Bool.false_eq_true, if_false] at h
    rcases hst : add_syn_date_column s (some base) (some (("_temp_syn_date_") ++ base)) sd ed gen temp with ⟨oe, s1⟩
    cases oe with
    | some e => simp [hst] at h
    | none => simp [hst] at h
  · simp [syn_date_column, hbase] at h

/-- Claim C1: for every dataset handle with loaded data and every
column-level operation that returns successfully — `set_column_type`,
`add_column`, `drop_column`, `replace_column`, `rename_column`, and the
masking (`add_masked_column`, `mask_column`, `add_masked_mail_column`,
`mask_mail_column`), noise (`add_gaussian_noise_column`, `gaussian_column`,
`add_impulse_noise_column`, `impulse_column`, `add_salt_pepper_noise_column`,
`salt_pepper_column`), range (`add_integer_range_column`,
`integer_range_column`, `add_float_range_column`) and synthetic-column
(`add_syn_date_column`, `syn_date_column`) operations — the row count of
the canonical table after the operation equals the row count before it. -/
theorem claim_c1_row_count_invariant (op : ColOp) (s : Eng)
    (hwf : wfTable s.table = true) (h : (applyOp op s).1 = none) :
    rowCount (applyOp op s).2.table = rowCount s.table := by
  cases op with
  | opSetType names cast => exact (pres_set_column_type names cast s hwf h).1
  | opAddColumn vec name temp => exact (pres_add_column vec name temp s hwf h).1
  | opDropColumn names => exact (pres_dropOp names s hwf h).1
  | opReplaceColumn tgts srcs => exact (pres_replace_column tgts srcs s hwf h).1
  | opRenameColumn olds news => exact (pres_rename_column olds news s hwf h).1
  | opAddMasked base nn l r mc => exact (pres_add_masked_column base nn l r mc s hwf h).1
  | opMaskColumn base l r mc fault => exact (pres_mask_column base l r mc fault s hwf h).1
  | opAddMaskedMail base nn f upds => exact (pres_add_masked_mail_column base nn f upds s hwf h).1
  | opMaskMailColumn base f upds fault =>
    exact (pres_mask_mail_column base f upds fault s hwf h).1
  | opAddGaussian base nn temp draw => exact (pres_add_gaussian base nn temp draw s hwf h).1
  | opGaussianColumn col temp draw fault cfault =>
    exact (pres_gaussian_column col temp draw fault cfault s hwf h).1
  | opAddImpulse base nn spct nsamp imag ipct perm noise =>
    exact (pres_add_impulse base nn spct nsamp imag ipct perm noise s hwf h).1
  | opImpulseColumn col spct nsamp imag ipct perm noise fault cfault =>
    exact (pres_impulse_column col spct nsamp imag ipct perm noise fault cfault s hwf h).1
  | opAddSaltPepper base nn spct nsamp perm pick =>
    exact (pres_add_salt_pepper base nn spct nsamp perm pick s hwf h).1
  | opSaltPepperColumn col spct nsamp perm pick fault cfault =>
    exact (pres_salt_pepper_column col spct nsamp perm pick fault cfault s hwf h).1
  | opAddIntRange base nn nr rs os mrs temp =>
    exact (pres_add_int_range base nn nr rs os mrs temp s hwf h).1
  | opIntRangeColumn base nr rs os mrs temp fault cfault =>
    exact (pres_integer_range_column base nr rs os mrs temp fault cfault s hwf h).1
  | opAddFloatRange base nn nr rs g temp =>
    exact (pres_add_float_range base nn nr rs g temp s hwf h).1
  | opAddSynDate base nn sd ed gen temp =>
    exact (pres_add_syn_date base nn sd ed gen temp s hwf h).1
  | opSynDateColumn base sd ed gen temp =>
    exact (pres_syn_date_column base sd ed gen temp s hwf h).1

/-- Witness for C1: a concrete two-column, two-row table; dropping column
`b` succeeds and leaves the row count at 2. -/
theorem claim_c1_row_count_invariant_witness :
    rowCount (applyOp (ColOp.opDropColumn [("b")])
      (Eng.mk [(("a"), [Value.vint 1, Value.vint 2]), (("b"), [Value.vint 3, Value.vint 4])] [])).2.table
      = rowCount (Eng.mk [(("a"), [Value.vint 1, Value.vint 2]), (("b"), [Value.vint 3, Value.vint 4])] []).table :=
  claim_c1_row_count_invariant (ColOp.opDropColumn [("b")])
    (Eng.mk [(("a"), [Value.vint 1, Value.vint 2]), (("b"), [Value.vint 3, Value.vint 4])] [])
    (by decide) (by decide)

/-- NULL-cell count of a column: `COUNT(*) - COUNT(col)` in SQL terms. -/
def nullCount (t : Table) (base : String) : Nat :=
  (getColVals t base).countP (fun v => v == Value.vnull)

lemma countP_not_null (l : List Value) :
    l.countP (fun v => !(v == Value.vnull)) = l.length - l.countP (fun v => v == Value.vnull) := by
  induction l with
  | nil => rfl
  | cons x xs ih =>
    have hle : xs.countP (fun v => v == Value.vnull) ≤ xs.length := List.countP_le_length _
    by_cases hx : (x == Value.vnull) = true <;>
      · simp [List.countP_cons, hx, ih]
        try omega

lemma nonNullCount_eq (t : Table) (base : String) :
    nonNullCount t base = (getColVals t base).length - nullCount t base := by
  unfold nonNullCount nullCount
  exact countP_not_null (getColVals t base)

lemma nullCount_le (t : Table) (base : String) :
    nullCount t base ≤ (getColVals t base).length :=
  List.countP_le_length _

lemma erase_cons_self (temp : String) (l : List String) : (temp :: l).erase temp = l :=
  List.erase_cons_head temp l

/-- Claim C2: for every loaded dataset and every input vector whose row
count differs from the canonical table's, `add_column` raises a
`ValueError` carrying both counts in its message, the canonical table
(column set and contents) is unchanged, and the temporary relation
registered for the vector is unregistered again before the error
propagates — the final state is exactly the initial state. -/
theorem claim_c2_add_column_mismatch (s : Eng) (vec : List Value) (name temp : String)
    (hid : isIdent name = true) (hm : vec.length ≠ rowCount s.table) :
    add_column s vec name temp = (some (mismatchMsg vec.length (rowCount s.table)), s) := by
  simp only [add_column, hid, if_true]
  rw [if_neg hm]
  rw [erase_cons_self]

/-- Witness for C2: a vector of two cells against a one-row table. -/
theorem claim_c2_add_column_mismatch_witness :
    add_column (Eng.mk [(("a"), [Value.vint 1])] []) [Value.vint 7, Value.vint 8] ("z") ("tmp")
      = (some (mismatchMsg 2 1), Eng.mk [(("a"), [Value.vint 1])] []) :=
  claim_c2_add_column_mismatch (Eng.mk [(("a"), [Value.vint 1])] [])
    [Value.vint 7, Value.vint 8] ("z") ("tmp") (by decide) (by decide)

/-- Claim C9 (code bug): `filter_rows` with an empty column list is indeed
an informational no-op returning the handle (`true` in the third slot),
but `drop_column` with an empty list, while raising no error and leaving
the table unchanged, executes a bare `return` and hands back `None`
(`false` in the third slot) instead of the CS handle its own signature and
docstring promise — so method chaining breaks. -/
theorem claim_c9_empty_noop (s : Eng) (condition metaStr : String) (keep : Nat → Bool) :
    drop_column s [] = (none, s, false) ∧
      filter_rows s [] condition metaStr keep = (none, s, true) :=
  ⟨rfl, rfl⟩

/-- Counterexample to C10 as stated: with an all-NULL base column,
`COUNT(base) = 0` and the aggregate mean and stddev are SQL NULL, so
`np.random.normal(None, None, 0)` raises `TypeError` (noise.py, line 54)
before `add_column` is ever reached — not the row-count-mismatch
`ValueError` the claim asserts for every non-empty table whose base
column contains a NULL. -/
theorem claim_c10_counterexample :
    (add_gaussian_noise_column (Eng.mk [(("a"), [Value.vnull])] []) ("a") (some ("g"))
        ("tmp") (fun n => List.replicate n (Value.vint 0))).1 = some (normalNullStatsMsg) ∧
    normalNullStatsMsg ≠ mismatchMsg 0 1 := by
  refine ⟨by decide, by decide⟩

/-- Claim C10, amended: `add_gaussian_noise_column` draws `COUNT(base)`
samples (NULLs excluded) and attaches them through the positional-join
`add_column`.  When the base column holds at least one NULL and at least
one non-NULL cell, the call raises the row-count-mismatch `ValueError`
and leaves the engine state untouched; with no NULLs in a non-empty
table it succeeds and appends a noise column of exactly `rowCount`
cells; but when `COUNT(base)` is zero (all-NULL base column, or an empty
table) the aggregate mean and stddev are NULL and `np.random.normal`
raises `TypeError` before `add_column` is reached — not the mismatch
error. -/
theorem claim_c10_gaussian_nulls_amended (s : Eng) (base nn temp : String)
    (draw : Nat → List Value)
    (hwf : wfTable s.table = true) (hb : hasCol s.table base = true)
    (hdraw : ∀ n, (draw n).length = n) (hid : isIdent nn = true) :
    (0 < nullCount s.table base → nullCount s.table base < rowCount s.table →
      add_gaussian_noise_column s base (some nn) temp draw
        = (some (mismatchMsg (rowCount s.table - nullCount s.table base) (rowCount s.table)), s)) ∧
    (nullCount s.table base = 0 → 0 < rowCount s.table →
      add_gaussian_noise_column s base (some nn) temp draw
        = (none, Eng.mk (s.table ++ [(nn, draw (rowCount s.table))]) s.registered) ∧
      (draw (rowCount s.table)).length = rowCount s.table) ∧
    (nullCount s.table base = rowCount s.table →
      add_gaussian_noise_column s base (some nn) temp draw
        = (some (normalNullStatsMsg), s)) := by
  have hlen : (getColVals s.table base).length = rowCount s.table :=
    getColVals_length s.table base hwf hb
  have hcnt : nonNullCount s.table base = rowCount s.table - nullCount s.table base := by
    rw [nonNullCount_eq, hlen]
  have hkle : nullCount s.table base ≤ rowCount s.table := by
    have := nullCount_le s.table base
    omega
  refine ⟨?_, ?_, ?_⟩
  · intro hk hk2
    have hne : (draw (nonNullCount s.table base)).length ≠ rowCount s.table := by
      rw [hdraw, hcnt]
      omega
    simp only [add_gaussian_noise_column, hb, Bool.not_true, Bool.false_eq_true, if_false,
      Option.getD_some]
    rw [if_neg (show ¬ nonNullCount s.table base = 0 by omega)]
    simp only [add_column, hid, if_true]
    rw [if_neg hne]
    rw [erase_cons_self, hdraw, hcnt]
  · intro hk hrc
    have heq : (draw (nonNullCount s.table base)).length = rowCount s.table := by
      rw [hdraw, hcnt]
      omega
    have hcnt2 : nonNullCount s.table base = rowCount s.table := by omega
    refine ⟨?_, by rw [hdraw]⟩
    simp only [add_gaussian_noise_column, hb, Bool.not_true, Bool.false_eq_true, if_false,
      Option.getD_some]
    rw [if_neg (show ¬ nonNullCount s.table base = 0 by omega)]
    simp only [add_column, hid, if_true]
    rw [if_pos heq]
    rw [erase_cons_self, hcnt2]
  · intro hk
    have hz : nonNullCount s.table base = 0 := by omega
    simp only [add_gaussian_noise_column, hb, Bool.not_true, Bool.false_eq_true, if_false]
    rw [if_pos hz]

/-- Witness for the amended C10: a three-row table whose base column holds
one NULL among non-NULL cells fails with the mismatch message for 2
versus 3 rows. -/
theorem claim_c10_gaussian_nulls_amended_witness :
    add_gaussian_noise_column (Eng.mk [(("a"), [Value.vint 1, Value.vnull, Value.vint 3])] [])
        ("a") (some ("g")) ("tmp") (fun n => List.replicate n (Value.vint 0))
      = (some (mismatchMsg 2 3), Eng.mk [(("a"), [Value.vint 1, Value.vnull, Value.vint 3])] []) :=
  (claim_c10_gaussian_nulls_amended
    (Eng.mk [(("a"), [Value.vint 1, Value.vnull, Value.vint 3])] [])
    ("a") ("g") ("tmp") (fun n => List.replicate n (Value.vint 0))
    (by decide) (by decide) (fun n => by simp) (by decide)).1 (by decide) (by decide)

lemma pyStr_split (v : PyVal) : pyStrOf v = maskSign v ++ maskProc v := by
  cases v with
  | pint n => by_cases hn : n < 0 <;> simp [pyStrOf, maskSign, maskProc, hn]
  | pstr s =>
    by_cases hcond : negNumStr s
    · have hne : s ≠ [] := by
        intro he
        subst he
        exact hcond.2.1 rfl
      have hhead : s = s.headD ' ' :: s.tail := by
        cases s with
        | nil => exact absurd rfl hne
        | cons a as => rfl
      simp only [pyStrOf, maskSign, maskProc, if_pos hcond]
      rw [hcond.1] at hhead
      exact hhead.trans rfl
    · simp [pyStrOf, maskSign, maskProc, hcond]

lemma maskBody_length (v : PyVal) (l r : Nat) (mc : List Char) :
    (maskBody v l r mc).length = (maskProc v).length := by
  unfold maskBody
  split
  all_goals dsimp only
  all_goals split <;> simp

lemma mask_mapIdx_decomp (proc : List Char) (l r : Nat) (c : Char) (h : l + r < proc.length) :
    proc.mapIdx (fun i ch => if i < l ∨ proc.length - r ≤ i then c else ch)
      = List.replicate l c ++ ((proc.drop l).take (proc.length - l - r)) ++ List.replicate r c := by
  have hlenAB : (List.replicate l c ++ ((proc.drop l).take (proc.length - l - r))).length
      = proc.length - r := by
    rw [List.length_append, List.length_replicate, List.length_take, List.length_drop]
    omega
  apply List.ext_getElem
  · simp
    omega
  · intro i h1 h2
    rw [List.getElem_mapIdx]
    by_cases hi1 : i < l
    · rw [List.getElem_append_left (by rw [hlenAB]; omega)]
      rw [List.getElem_append_left (by simpa using hi1)]
      rw [List.getElem_replicate]
      rw [if_pos (Or.inl hi1)]
    · by_cases hi2 : i < proc.length - r
      · rw [List.getElem_append_left (by rw [hlenAB]; omega)]
        rw [List.getElem_append_right (by simpa using (by omega : l ≤ i))]
        have hcond : ¬(i < l ∨ proc.length - r ≤ i) := by omega
        simp only [hcond, if_false]
        simp only [List.length_replicate, List.getElem_take, List.getElem_drop]
        congr 1
        omega
      · rw [List.getElem_append_right (by rw [hlenAB]; omega)]
        rw [List.getElem_replicate]
        have hcond : i < l ∨ proc.length - r ≤ i := by omega
        rw [if_pos hcond]

/-- Claim C4: the masking transform `_mask_value_for_duckdb`, for every
integer or string value, every pair of non-negative counts and every
non-empty mask string (of which the first character is used): (1) the
output has the length of the stringified input; (2) the stringified input
splits into the preserved sign prefix and the processed part; (3) when
`mask_left + mask_right` reaches the stringified value's length the output
is the preserved sign followed by mask characters only; (4) otherwise,
when the two counts fit inside the processed part, the output is the sign,
then `mask_left` mask characters, then the untouched middle of the
processed part, then `mask_right` mask characters. -/
theorem claim_c4_mask_value (v : PyVal) (l r : Nat) (mc : List Char) (hmc : mc ≠ []) :
    ((maskValueForDuckdb v l r mc).length = (pyStrOf v).length) ∧
    (pyStrOf v = maskSign v ++ maskProc v) ∧
    ((pyStrOf v).length ≤ l + r →
      maskValueForDuckdb v l r mc
        = maskSign v ++ List.replicate (maskProc v).length (mc.headD ' ')) ∧
    (l + r ≤ (maskProc v).length →
      maskValueForDuckdb v l r mc
        = maskSign v ++ (List.replicate l (mc.headD ' ') ++
            (((maskProc v).drop l).take ((maskProc v).length - l - r)) ++
            List.replicate r (mc.headD ' '))) := by
  obtain ⟨c0, tl, rfl⟩ : ∃ c0 tl, mc = c0 :: tl := by
    cases mc with
    | nil => exact absurd rfl hmc
    | cons c0 tl => exact ⟨c0, tl, rfl⟩
  have hsplit := pyStr_split v
  have hlen1 : (pyStrOf v).length = (maskSign v).length + (maskProc v).length := by
    rw [hsplit]; simp
  refine ⟨?_, hsplit, ?_, ?_⟩
  · unfold maskValueForDuckdb
    rw [List.length_append, maskBody_length, hlen1]
  · intro hge
    unfold maskValueForDuckdb maskBody
    have hbranch : (maskProc v).length ≤
        min l (maskProc v).length + min r ((maskProc v).length - min l (maskProc v).length) := by
      omega
    rw [if_pos hbranch]
    rfl
  · intro hle
    unfold maskValueForDuckdb maskBody
    have hal : min l (maskProc v).length = l := by omega
    have har : min r ((maskProc v).length - min l (maskProc v).length) = r := by omega
    by_cases heq : (maskProc v).length = l + r
    · have hbranch : (maskProc v).length ≤
          min l (maskProc v).length + min r ((maskProc v).length - min l (maskProc v).length) := by
        omega
      rw [if_pos hbranch]
      congr 1
      have htake : (((maskProc v).drop l).take ((maskProc v).length - l - r)) = [] := by
        have : (maskProc v).length - l - r = 0 := by omega
        simp [this]
      rw [htake]
      simp only [List.append_nil]
      rw [heq, List.replicate_add]
      rfl
    · have hlt : l + r < (maskProc v).length := by omega
      have hbranch : ¬((maskProc v).length ≤
          min l (maskProc v).length + min r ((maskProc v).length - min l (maskProc v).length)) := by
        omega
      rw [if_neg hbranch]
      congr 1
      have har2 : min r ((maskProc v).length - l) = r := by omega
      simp only [hal, har2]
      exact mask_mapIdx_decomp (maskProc v) l r c0 hlt

/-- Witness for C4: masking the integer -1234 with two chars on the left
and one on the right; the sign survives, the middle digit survives. -/
theorem claim_c4_mask_value_witness :
    ((maskValueForDuckdb (PyVal.pint (-1234)) 2 1 ['x']).length
        = (pyStrOf (PyVal.pint (-1234))).length) ∧
    (pyStrOf (PyVal.pint (-1234))
        = maskSign (PyVal.pint (-1234)) ++ maskProc (PyVal.pint (-1234))) ∧
    ((pyStrOf (PyVal.pint (-1234))).length ≤ 2 + 1 →
      maskValueForDuckdb (PyVal.pint (-1234)) 2 1 ['x']
        = maskSign (PyVal.pint (-1234)) ++
            List.replicate (maskProc (PyVal.pint (-1234))).length (['x'].headD ' ')) ∧
    (2 + 1 ≤ (maskProc (PyVal.pint (-1234))).length →
      maskValueForDuckdb (PyVal.pint (-1234)) 2 1 ['x']
        = maskSign (PyVal.pint (-1234)) ++ (List.replicate 2 (['x'].headD ' ') ++
            (((maskProc (PyVal.pint (-1234))).drop 2).take
              ((maskProc (PyVal.pint (-1234))).length - 2 - 1)) ++
            List.replicate 1 (['x'].headD ' '))) :=
  claim_c4_mask_value (PyVal.pint (-1234)) 2 1 ['x'] (by decide)

instance : Std.Antisymm (fun (a b : Int) => a ≤ b) :=
  ⟨fun h1 h2 => Int.le_antisymm h1 h2⟩

lemma intMin?_spec {l : List Int} {a : Int} (h : l.min? = some a) :
    a ∈ l ∧ ∀ b ∈ l, a ≤ b :=
  (List.min?_eq_some_iff (fun x => Int.le_refl x) (fun x y => min_choice x y)
    (fun _ _ _ => le_min_iff)).mp h

lemma intMax?_spec {l : List Int} {a : Int} (h : l.max? = some a) :
    a ∈ l ∧ ∀ b ∈ l, b ≤ a :=
  (List.max?_eq_some_iff (fun x => Int.le_refl x) (fun x y => max_choice x y)
    (fun _ _ _ => max_le_iff)).mp h

lemma ceil_fdiv_eq (span rs : Int) (hrs : 0 < rs) :
    (span + rs - 1).fdiv rs = (span - 1) / rs + 1 := by
  rw [Int.fdiv_eq_ediv _ (le_of_lt hrs)]
  have h : span + rs - 1 = (span - 1) + 1 * rs := by ring
  rw [h, Int.add_mul_ediv_right _ _ (ne_of_gt hrs)]

lemma c5_num_facts (span rs : Int) (hspan : 0 < span) (hrs : 0 < rs) :
    1 ≤ (span + rs - 1).fdiv rs ∧ span ≤ (span + rs - 1).fdiv rs * rs ∧
      (span + rs - 1).fdiv rs - 1 = (span - 1) / rs := by
  have hq := ceil_fdiv_eq span rs hrs
  have hqq : 0 ≤ (span - 1) / rs := Int.ediv_nonneg (by omega) (by omega)
  have h1 := Int.ediv_add_emod (span - 1) rs
  have h2 := Int.emod_nonneg (span - 1) (ne_of_gt hrs)
  have h3 := Int.emod_lt_of_pos (span - 1) hrs
  refine ⟨by omega, ?_, by omega⟩
  rw [hq]
  have hexp : ((span - 1) / rs + 1) * rs = rs * ((span - 1) / rs) + rs := by ring
  rw [hexp]
  linarith

/-- The base-column values of the §8 scenario: the integers 1..100. -/
def c5ScenarioVals : List (Option Int) :=
  (List.range 100).map (fun k => some ((k : Int) + 1))

/-- The expected per-row buckets of the §8 scenario: row with value `k + 1`
lands in `[10 * (k / 10) + 1, 10 * (k / 10) + 10]`. -/
def c5ScenarioExpected : List Value :=
  (List.range 100).map (fun k =>
    Value.vpair (10 * ((k : Int) / 10) + 1) (10 * ((k : Int) / 10) + 10))

set_option maxRecDepth 100000 in
/-- Claim C5, amended: for `add_integer_range_column`/`integer_range_column`
with `range_size` given (the original claim also covered the `num_ranges`
form, where the final bucket's end can exceed the true maximum — see the
counterexample) and no `min_range_start` override: the derived parameters
are the true min/max with `ceil(span / range_size)` buckets; every non-null
value `v` satisfies `bucketStart ≤ v ≤ bucketEnd`; buckets are contiguous
and non-overlapping (`end i + 1 = start (i+1)`); the final bucket's end
equals the column's true maximum; and on the values 1..100 with
`range_size = 10` the op yields exactly the ten buckets
`[1,10], [11,20], ..., [91,100]`. -/
theorem claim_c5_integer_range_amended (vals : List (Option Int)) (rs mn mx : Int)
    (hrs : 0 < rs)
    (hmin : (vals.filterMap id).min? = some mn)
    (hmax : (vals.filterMap id).max? = some mx) :
    (intRangeSetup vals none (some rs) none
        = Except.ok (mn, mx, rs, (mx - mn + 1 + rs - 1).fdiv rs)) ∧
    (∀ v : Int, some v ∈ vals →
      bucketStartI mn rs (bucketIdx mn rs ((mx - mn + 1 + rs - 1).fdiv rs) v) ≤ v ∧
      v ≤ bucketEndI mn mx rs ((mx - mn + 1 + rs - 1).fdiv rs)
            (bucketIdx mn rs ((mx - mn + 1 + rs - 1).fdiv rs) v)) ∧
    (∀ i : Int, 0 ≤ i → i < (mx - mn + 1 + rs - 1).fdiv rs - 1 →
      bucketEndI mn mx rs ((mx - mn + 1 + rs - 1).fdiv rs) i + 1
        = bucketStartI mn rs (i + 1)) ∧
    (bucketEndI mn mx rs ((mx - mn + 1 + rs - 1).fdiv rs)
        ((mx - mn + 1 + rs - 1).fdiv rs - 1) = mx) ∧
    (intRangeCalc c5ScenarioVals none (some 10) none false
        = Except.ok c5ScenarioExpected) ∧
    (c5ScenarioExpected.dedup
        = [Value.vpair 1 10, Value.vpair 11 20, Value.vpair 21 30, Value.vpair 31 40,
           Value.vpair 41 50, Value.vpair 51 60, Value.vpair 61 70, Value.vpair 71 80,
           Value.vpair 81 90, Value.vpair 91 100]) := by
  have hmn := intMin?_spec hmin
  have hmx := intMax?_spec hmax
  have hmnmx : mn ≤ mx := hmx.2 mn hmn.1
  have hspan : 0 < mx - mn + 1 := by omega
  obtain ⟨hnum1, hnum2, hnum3⟩ := c5_num_facts (mx - mn + 1) rs hspan hrs
  refine ⟨?_, ?_, ?_, ?_, by rfl, by rfl⟩
  · unfold intRangeSetup
    dsimp only
    rw [hmin, hmax]
    dsimp only [Option.getD_none]
    unfold rangeSizeNum
    dsimp only
    rw [if_neg (by omega : ¬ (mx - mn + 1 ≤ 0))]
    dsimp only
    rw [if_neg (ne_of_gt hrs)]
  · intro v hv
    have hvmem : v ∈ vals.filterMap id := List.mem_filterMap.mpr ⟨some v, hv, rfl⟩
    have hv1 : mn ≤ v := hmn.2 v hvmem
    have hv2 : v ≤ mx := hmx.2 v hvmem
    have hq0 : 0 ≤ (v - mn) / rs := Int.ediv_nonneg (by omega) (by omega)
    have hqle : (v - mn) / rs ≤ (mx - mn + 1 + rs - 1).fdiv rs - 1 := by
      rw [hnum3]
      exact Int.ediv_le_ediv hrs (by omega)
    have hidx : bucketIdx mn rs ((mx - mn + 1 + rs - 1).fdiv rs) v = (v - mn) / rs := by
      unfold bucketIdx
      rw [Int.fdiv_eq_ediv (v - mn) (le_of_lt hrs)]
      omega
    constructor
    · rw [hidx]
      unfold bucketStartI
      have hle := Int.ediv_mul_le (v - mn) (ne_of_gt hrs)
      linarith
    · rw [hidx]
      unfold bucketEndI
      dsimp only
      split_ifs with hcl
      · exact hv2
      · have hlt := Int.lt_ediv_add_one_mul_self (v - mn) hrs
        have hexp : ((v - mn) / rs + 1) * rs = (v - mn) / rs * rs + rs := by ring
        rw [hexp] at hlt
        linarith
  · intro i h0 hi
    unfold bucketEndI bucketStartI
    rw [if_neg (fun hcon => absurd hcon.1 (by omega))]
    ring
  · unfold bucketEndI
    dsimp only
    split_ifs with hcl
    · rfl
    · have h1 : ¬ mx < mn + ((mx - mn + 1 + rs - 1).fdiv rs - 1) * rs + rs - 1 :=
        fun hlt => hcl ⟨rfl, hlt⟩
      have hexp : mn + ((mx - mn + 1 + rs - 1).fdiv rs - 1) * rs + rs - 1
          = mn + (mx - mn + 1 + rs - 1).fdiv rs * rs - 1 := by ring
      rw [hexp] at h1 ⊢
      linarith [not_lt.mp h1]

/-- Counterexample to C5 as stated: with `num_ranges = 4` on the values
1..5 the span is 5, the derived size is 2, and the value 5 lands in bucket
index 2 (not the final index 3), whose unclamped end is 6 — the last
emitted bucket ends at 6 while the column's true maximum is 5. -/
theorem claim_c5_counterexample :
    intRangeCalc [some 1, some 2, some 3, some 4, some 5] (some 4) none none false
      = Except.ok [Value.vpair 1 2, Value.vpair 1 2, Value.vpair 3 4,
          Value.vpair 3 4, Value.vpair 5 6] ∧
    ([some 1, some 2, some 3, some 4, some 5].filterMap (id : Option Int → Option Int)).max?
      = some 5 ∧
    (6 : Int) ≠ 5 := by
  refine ⟨by rfl, by decide, by decide⟩

/-- Witness for the amended C5 at the concrete column `[3, 5]` with
`range_size = 2`. -/
theorem claim_c5_integer_range_amended_witness :
    (intRangeSetup [some 3, some 5] none (some 2) none
        = Except.ok (3, 5, 2, ((5 : Int) - 3 + 1 + 2 - 1).fdiv 2)) ∧
    (∀ v : Int, some v ∈ [some (3 : Int), some 5] →
      bucketStartI 3 2 (bucketIdx 3 2 (((5 : Int) - 3 + 1 + 2 - 1).fdiv 2) v) ≤ v ∧
      v ≤ bucketEndI 3 5 2 (((5 : Int) - 3 + 1 + 2 - 1).fdiv 2)
            (bucketIdx 3 2 (((5 : Int) - 3 + 1 + 2 - 1).fdiv 2) v)) ∧
    (∀ i : Int, 0 ≤ i → i < ((5 : Int) - 3 + 1 + 2 - 1).fdiv 2 - 1 →
      bucketEndI 3 5 2 (((5 : Int) - 3 + 1 + 2 - 1).fdiv 2) i + 1
        = bucketStartI 3 2 (i + 1)) ∧
    (bucketEndI 3 5 2 (((5 : Int) - 3 + 1 + 2 - 1).fdiv 2)
        (((5 : Int) - 3 + 1 + 2 - 1).fdiv 2 - 1) = 5) ∧
    (intRangeCalc c5ScenarioVals none (some 10) none false
        = Except.ok c5ScenarioExpected) ∧
    (c5ScenarioExpected.dedup
        = [Value.vpair 1 10, Value.vpair 11 20, Value.vpair 21 30, Value.vpair 31 40,
           Value.vpair 41 50, Value.vpair 51 60, Value.vpair 61 70, Value.vpair 71 80,
           Value.vpair 81 90, Value.vpair 91 100]) :=
  claim_c5_integer_range_amended [some 3, some 5] 2 3 5 (by decide) (by decide) (by decide)

lemma segStep_le (n i e : Nat) : segStep n i e ≤ e := by
  unfold segStep
  calc ((List.range e).map (fun k => k + 1)).countP (fun rn => rn % n == i)
      ≤ ((List.range e).map (fun k => k + 1)).length := List.countP_le_length _
    _ = e := by simp

lemma segCountsGo_sum (n : Nat) : ∀ k e i, 1 ≤ k → (segCountsGo n k e i).sum = e := by
  intro k
  induction k with
  | zero => intro e i h; omega
  | succ k2 ih =>
    intro e i _
    cases k2 with
    | zero => simp [segCountsGo]
    | succ k3 =>
      have hle := segStep_le n i e
      have := ih (e - segStep n i e) (i + 1) (by omega)
      show (segStep n i e :: segCountsGo n (k3 + 1) (e - segStep n i e) (i + 1)).sum = e
      rw [List.sum_cons, this]
      omega

/-- Claim C8, amended: the domain-choices loop recomputes the eligible set
after each segment update, and step `i < n - 1` masks the eligible rows
whose fresh random ordinal is congruent to `i` mod `n`, so earlier
segments shrink later pools: with 10 eligible rows and three choices the
split is 3/3/4 (as the claim says), but with 9 eligible rows it is 3/2/4
— not 3/3/3.  The final choice still absorbs every remaining eligible
row, so the assignment counts always sum to the eligible count (full
coverage). -/
theorem claim_c8_mail_segments_amended :
    segCounts 3 10 = [3, 3, 4] ∧ segCounts 3 9 = [3, 2, 4] ∧
      (∀ n e : Nat, 1 ≤ n → (segCounts n e).sum = e) := by
  refine ⟨by decide, by decide, ?_⟩
  intro n e h
  exact segCountsGo_sum n n e 0 h

/-- Witness for the amended C8: the counts for three choices over nine
eligible rows cover all nine rows. -/
theorem claim_c8_mail_segments_amended_witness : (segCounts 3 9).sum = 9 :=
  claim_c8_mail_segments_amended.2.2 3 9 (by decide)

/-- Counterexample to C8 as stated: with `domain_choices = [d1, d2, d3]`
and 9 eligible rows the assignment counts are `[3, 2, 4]`, not the claimed
3/3/3 split. -/
theorem claim_c8_counterexample :
    segCounts 3 9 = [3, 2, 4] ∧ segCounts 3 9 ≠ [3, 3, 3] := by
  refine ⟨by decide, by decide⟩

/-- Counterexample to C7 as stated: `sample_pct = 25` on 10 rows selects
`max(1, int(25 * 10 / 100)) = 2` row positions, while
`ceil(25% * 10) = 3` — the code truncates, it does not take the ceiling. -/
theorem claim_c7_counterexample :
    (selectRowIds [0, 1, 2, 3, 4, 5, 6, 7, 8, 9] (numSamplesToAlter none (some 25) 10)).length = 2 ∧
    Int.ceil ((25 : Rat) * 10 / 100) = 3 := by
  constructor
  · have h : numSamplesToAlter none (some 25) 10 = 2 := by
      unfold numSamplesToAlter
      norm_num
      decide
    rw [h]
    rfl
  · rw [show ((25 : Rat) * 10 / 100) = 5 / 2 by norm_num]
    rw [Int.ceil_eq_iff]
    constructor <;> norm_num

/-- Claim C7, amended: with `sample_pct` given (and `n_samples` absent) on
a table with a positive row count, the number of distinct row positions
selected for alteration is `max(1, floor(sample_pct * rowCount / 100))`
(truncation, not ceiling), and the positions are drawn without
replacement from a random permutation of the row ids: they are pairwise
distinct and all within range. -/
theorem claim_c7_sampling_amended (p : Rat) (rows : Nat) (perm : List Nat)
    (hp1 : 0 < p) (hp2 : p < 100) (hrows : 0 < rows)
    (hperm : perm.Perm (List.range rows)) :
    (selectRowIds perm (numSamplesToAlter none (some p) rows)).Nodup ∧
    (selectRowIds perm (numSamplesToAlter none (some p) rows)).length
      = max 1 (Int.toNat (Int.floor (p * rows / 100))) ∧
    (∀ x ∈ selectRowIds perm (numSamplesToAlter none (some p) rows), x < rows) := by
  have hlenperm : perm.length = rows := by simpa using hperm.length_eq
  have hnodup : perm.Nodup := (hperm.nodup_iff).mpr (List.nodup_range rows)
  have hfl : Int.floor (p * rows / 100) < (rows : Int) := by
    apply Int.floor_lt.mpr
    push_cast
    rw [div_lt_iff (by norm_num : (0 : Rat) < 100)]
    have hr : (0 : Rat) < rows := by exact_mod_cast hrows
    nlinarith
  have hkle : numSamplesToAlter none (some p) rows ≤ rows := by
    have heq : numSamplesToAlter none (some p) rows
        = max 1 (Int.toNat (Int.floor (p * rows / 100))) := rfl
    rw [heq]
    omega
  refine ⟨?_, ?_, ?_⟩
  · exact List.Nodup.sublist (List.take_sublist _ _) hnodup
  · show (perm.take (numSamplesToAlter none (some p) rows)).length = _
    rw [List.length_take, hlenperm]
    have heq : numSamplesToAlter none (some p) rows
        = max 1 (Int.toNat (Int.floor (p * rows / 100))) := rfl
    omega
  · intro x hx
    have hxp : x ∈ perm := List.mem_of_mem_take hx
    exact List.mem_range.mp ((hperm.mem_iff).mp hxp)

/-- Witness for the amended C7: 50 percent of two rows selects one
distinct row id. -/
theorem claim_c7_sampling_amended_witness :
    (selectRowIds [1, 0] (numSamplesToAlter none (some 50) 2)).Nodup ∧
    (selectRowIds [1, 0] (numSamplesToAlter none (some 50) 2)).length
      = max 1 (Int.toNat (Int.floor ((50 : Rat) * (2 : Nat) / 100))) ∧
    (∀ x ∈ selectRowIds [1, 0] (numSamplesToAlter none (some 50) 2), x < 2) :=
  claim_c7_sampling_amended 50 2 [1, 0] (by norm_num) (by norm_num) (by norm_num)
    (by decide)

/-- Counterexample to C6 as stated: a call supplying BOTH `sample_pct`
and `n_samples` and BOTH `impulse_mag` and `impulse_pct` is accepted —
the source only raises when NEITHER member of a pair is supplied (the
redundant member is silently ignored by precedence), so the claimed
mutual-exclusivity failure does not occur. -/
theorem claim_c6_counterexample :
    (add_impulse_noise_column (Eng.mk [(("a"), [Value.vint 1, Value.vint 2, Value.vint 3, Value.vint 4])] [])
        ("a") none (some 50) (some 2) (some 1) (some 10) [0, 1, 2, 3]
        (fun _ => Value.vint 0)).1 = none := by
  decide

/-- Claim C6, amended: `add_impulse_noise_column` validates the two
parameter pairs before any row is touched, but the validation is
one-sided: supplying NEITHER of `sample_pct`/`n_samples` fails with
exactly the message `Either sample_pct or n_samples must be provided.`
and leaves the state untouched; with a valid sample count, supplying
NEITHER of `impulse_mag`/`impulse_pct` fails with exactly the message
`Either impulse_mag or impulse_pct must be provided.` and leaves the
state untouched; supplying both members of a pair is accepted, with
`n_samples` taking precedence over `sample_pct` and `impulse_mag` over
`impulse_pct`. -/
theorem claim_c6_validation_amended :
    (∀ (s : Eng) (b nn : String) (perm : List Nat) (noise : Nat → Value)
        (imag ipct : Option Rat),
      hasCol s.table b = true → isIdent nn = true →
      add_impulse_noise_column s b (some nn) none none imag ipct perm noise
        = (some ("Either sample_pct or n_samples must be provided."), s)) ∧
    (∀ (s : Eng) (b nn : String) (perm : List Nat) (noise : Nat → Value) (n : Int),
      hasCol s.table b = true → isIdent nn = true → 0 < n →
      add_impulse_noise_column s b (some nn) none (some n) none none perm noise
        = (some ("Either impulse_mag or impulse_pct must be provided."), s)) ∧
    (∀ (n : Int) (spct : Option Rat) (rows : Nat),
      numSamplesToAlter (some n) spct rows = n.toNat) ∧
    (∀ (t : Table) (b : String) (m : Rat) (q : Option Rat),
      maxImpulseVal t b (some m) q = Except.ok m) := by
  refine ⟨?_, ?_, fun n spct rows => rfl, fun t b m q => rfl⟩
  · intro s b nn perm noise imag ipct hb hid
    unfold add_impulse_noise_column
    simp only [hb, hid, Bool.not_true, Bool.false_eq_true, if_false, Option.getD_some]
    rfl
  · intro s b nn perm noise n hb hid hn
    have h1 : samplePairError none (some n) = none := by
      unfold samplePairError
      rw [if_neg (by simp)]
      rw [if_neg (by simp)]
      rw [if_neg (by simp; omega)]
    unfold add_impulse_noise_column
    simp only [hb, hid, Bool.not_true, Bool.false_eq_true, if_false, Option.getD_some]
    simp only [h1]
    rfl

/-- Witness for the amended C6: supplying neither `sample_pct` nor
`n_samples` on a one-row table yields exactly the sample-pair message and
an unchanged state. -/
theorem claim_c6_validation_amended_witness :
    add_impulse_noise_column (Eng.mk [(("a"), [Value.vint 7])] []) ("a") (some ("impnew"))
        none none none none [0] (fun _ => Value.vint 0)
      = (some ("Either sample_pct or n_samples must be provided."),
         Eng.mk [(("a"), [Value.vint 7])] []) :=
  claim_c6_validation_amended.1 (Eng.mk [(("a"), [Value.vint 7])] []) ("a") ("impnew")
    [0] (fun _ => Value.vint 0) none none (by decide) (by decide)

lemma hasCol_eq_any (t : Table) (nm : String) :
    hasCol t nm = t.any (fun c => lowerStr c.1 == lowerStr nm) := by
  unfold hasCol findCol
  cases hf : t.find? (fun c => lowerStr c.1 == lowerStr nm) with
  | none =>
    have hall := List.find?_eq_none.mp hf
    simp only [Option.isSome_none]
    symm
    rw [List.any_eq_false]
    intro x hx
    simpa using hall x hx
  | some c =>
    have hc := List.mem_of_find?_eq_some hf
    have hp := List.find?_some hf
    simp only [Option.isSome_some]
    symm
    rw [List.any_eq_true]
    exact ⟨c, hc, hp⟩

lemma hasCol_append_one (t : Table) (x : String × List Value) (c : String)
    (h : hasCol t c = true) : hasCol (t ++ [x]) c = true := by
  rw [hasCol_eq_any] at h ⊢
  rw [List.any_append, h]
  rfl

lemma hasCol_append_self (t : Table) (nm : String) (vals : List Value) :
    hasCol (t ++ [(nm, vals)]) nm = true := by
  rw [hasCol_eq_any, List.any_append]
  have : [(nm, vals)].any (fun c => lowerStr c.1 == lowerStr nm) = true := by
    simp
  rw [this, Bool.or_true]

lemma hasCol_updateColWith (t : Table) (n : String) (f : List Value → List Value)
    (c : String) : hasCol (updateColWith t n f) c = hasCol t c := by
  unfold updateColWith
  rw [hasCol_eq_any, hasCol_eq_any, List.any_map]
  congr 1
  funext x
  by_cases hx : lowerStr x.1 = lowerStr n
  · simp [hx]
  · simp [hx]

lemma hasCol_applyAtCol (t : Table) (n : String) (ids : List Nat) (f : Nat → Value)
    (c : String) : hasCol (applyAtCol t n ids f) c = hasCol t c := by
  unfold applyAtCol
  exact hasCol_updateColWith t n _ c

lemma drop_column_single_eq (s : Eng) (nm : String) :
    drop_column s [nm] =
      (if ([lowerStr nm]).all (fun n => s.table.any (fun c => lowerStr c.1 == n)) then
        (if (s.table.filter (fun c => !(([lowerStr nm]).contains (lowerStr c.1)))).isEmpty
         then (some ("Cannot drop all columns."), s, true)
         else (none,
           { s with table := s.table.filter (fun c => !(([lowerStr nm]).contains (lowerStr c.1))) },
           true))
      else (some ("Column not found in the data."), s, true)) := rfl

lemma dropOp_clears (s : Eng) (nm other : String)
    (hother : hasCol s.table other = true)
    (hne : lowerStr other ≠ lowerStr nm) :
    hasCol ((dropOp [nm] s).2).table nm = false := by
  have hoth := hother
  rw [hasCol_eq_any, List.any_eq_true] at hoth
  obtain ⟨cc, hccmem, hccp⟩ := hoth
  have hcceq : lowerStr cc.1 = lowerStr other := by simpa using hccp
  unfold dropOp
  rw [drop_column_single_eq]
  split_ifs with hall hkeep
  · exfalso
    have hmem : cc ∈ s.table.filter
        (fun c => !(([lowerStr nm]).contains (lowerStr c.1))) := by
      rw [List.mem_filter]
      refine ⟨hccmem, ?_⟩
      simp [hcceq, hne]
    rw [List.isEmpty_iff] at hkeep
    rw [hkeep] at hmem
    exact List.not_mem_nil cc hmem
  · rw [hasCol_eq_any, List.any_eq_false]
    intro x hx
    rw [List.mem_filter] at hx
    have hpred := hx.2
    simp at hpred
    simp [hpred]
  · rw [hasCol_eq_any, List.any_eq_false]
    intro x hx
    simp only [List.all_cons, List.all_nil, Bool.and_true] at hall
    rw [List.any_eq_true] at hall
    push_neg at hall
    simpa using hall x hx

lemma add_impulse_success_hasCol (s : Eng) (b : String) (nn0 : Option String)
    (spct : Option Rat) (nsamp : Option Int) (imag ipct : Option Rat)
    (perm : List Nat) (noise : Nat → Value) (s1 : Eng)
    (h : add_impulse_noise_column s b nn0 spct nsamp imag ipct perm noise = (none, s1))
    (c : String) (hc : hasCol s.table c = true) : hasCol s1.table c = true := by
  by_cases hbase : hasCol s.table b = true
  · by_cases hid : isIdent (nn0.getD (("impulse_noise_") ++ b)) = true
    · simp only [add_impulse_noise_column] at h
      rcases hv1 : samplePairError spct nsamp with _ | e
      rotate_left
      · simp [hbase, hid, hv1] at h
      rcases hv2 : magPairError imag ipct with _ | e
      rotate_left
      · simp [hbase, hid, hv1, hv2] at h
      rcases hmi : maxImpulseVal s.table b imag ipct with e | mag
      · simp [hbase, hid, hv1, hv2, hmi] at h
      simp only [hbase, hid, hv1, hv2, hmi, Bool.not_true, Bool.false_eq_true, if_false] at h
      split_ifs at h
      · rw [Prod.mk.injEq] at h
        rw [← h.2]
        exact hc
      · rw [Prod.mk.injEq] at h
        rw [← h.2]
        exact hc
      · rw [Prod.mk.injEq] at h
        rw [← h.2]
        rw [hasCol_applyAtCol]
        exact hasCol_append_one _ _ _ hc
    · simp [add_impulse_noise_column, hbase, hid] at h
  · simp [add_impulse_noise_column, hbase] at h

lemma add_salt_pepper_success_hasCol (s : Eng) (b : String) (nn0 : Option String)
    (spct : Option Rat) (nsamp : Option Int) (perm : List Nat) (pick : Nat → Bool) (s1 : Eng)
    (h : add_salt_pepper_noise_column s b nn0 spct nsamp perm pick = (none, s1))
    (c : String) (hc : hasCol s.table c = true) : hasCol s1.table c = true := by
  by_cases hbase : hasCol s.table b = true
  · by_cases hid : isIdent (nn0.getD (("salt_pepper_noise_") ++ b)) = true
    · simp only [add_salt_pepper_noise_column] at h
      rcases hv1 : samplePairError spct nsamp with _ | e
      rotate_left
      · simp [hbase, hid, hv1] at h
      rcases hmm : minMaxInts (getColVals s.table b) with _ | mm
      all_goals simp only [hbase, hid, hv1, hmm, Bool.not_true, Bool.false_eq_true, if_false] at h
      all_goals split_ifs at h
      all_goals try
        (rw [Prod.mk.injEq] at h
         rw [← h.2]
         exact hc)
      · rw [Prod.mk.injEq] at h
        rw [← h.2]
        rw [hasCol_applyAtCol]
        exact hasCol_append_one _ _ _ hc
    · simp [add_salt_pepper_noise_column, hbase, hid] at h
  · simp [add_salt_pepper_noise_column, hbase] at h

lemma add_column_success_table (s : Eng) (vec : List Value) (name temp : String) (s1 : Eng)
    (h : add_column s vec name temp = (none, s1)) :
    s1.table = s.table ++ [(name, vec)] := by
  unfold add_column at h
  split_ifs at h
  · rw [Prod.mk.injEq] at h
    rw [← h.2]
  · exact absurd h (by simp)
  · exact absurd h (by simp)

lemma add_syn_date_some_eq (s : Eng) (b nn : String) (sd ed : Option String)
    (gen : Nat → Value) (temp : String) :
    add_syn_date_column s (some b) (some nn) sd ed gen temp =
      (if !(isIdent nn) then
        (some ("new_column_name must be a valid identifier (e.g., no spaces or special characters)."), s)
      else if !(hasCol s.table b) then
        (some ("Base column not found in the data."), s)
      else if sd = none ∧ ed = none then
        (some ("Either start_date or end_date (or both) must be provided to define a date range."), s)
      else if rowCount s.table = 0 then (none, s)
      else (some (verboseKwargMsg ("add_column")), s)) := rfl

lemma add_gaussian_success_table (s : Eng) (b : String) (nn0 : Option String)
    (temp : String) (draw : Nat → List Value) (s1 : Eng)
    (h : add_gaussian_noise_column s b nn0 temp draw = (none, s1)) :
    s1.table = s.table ++ [(nn0.getD (("noise_") ++ b), draw (nonNullCount s.table b))] := by
  unfold add_gaussian_noise_column at h
  split_ifs at h
  · exact absurd h (by simp)
  · exact absurd h (by simp)
  · exact add_column_success_table _ _ _ _ _ h

/-- Counterexample to C3 as stated: `mask_column` runs
stage/adopt/cleanup with no error handler at all, so when adoption
(`replace_column`) fails after the masked column was staged, the staged
column `masked_a` is still present in the returned state — it is not
dropped before the call returns. -/
theorem claim_c3_counterexample :
    (mask_column (Eng.mk [(("a"), [Value.vint 5])] []) ("a") 1 0 ("x")
        (some ("replace failed"))).1 = some ("replace failed") ∧
    hasCol (mask_column (Eng.mk [(("a"), [Value.vint 5])] []) ("a") 1 0 ("x")
        (some ("replace failed"))).2.table (("masked_") ++ ("a")) = true := by
  refine ⟨by decide, by decide⟩

/-- Claim C3, amended: only `impulse_column` and `salt_pepper_column`
honour the stage/adopt/cleanup guarantee — after a successful stage, an
adoption failure surfaces the original adoption error, and when the
cleanup drop itself does not fail the staged column is absent from the
returned state.  `syn_date_column` never gets that far: its stage passes
`verbose=` to `add_column` (synthetic.py, line 217), which accepts no
such keyword, so on every non-empty table the stage raises `TypeError`
with nothing staged and the state unchanged (the handler cleanup drop at
line 300 passes `verbose=` too and always raises, swallowed by the nested
`try`).  `gaussian_column` surfaces the original error but its cleanup
guard consults the column list captured BEFORE staging, so it never fires
and the staged `noised_<col>` column leaks into the returned state;
`mask_column` and `mask_mail_column` have no handler at all (see the
counterexample). -/
theorem claim_c3_stage_adopt_cleanup_amended :
    (∀ (s : Eng) (col : String) (spct : Option Rat) (nsamp : Option Int)
        (imag ipct : Option Rat) (perm : List Nat) (noise : Nat → Value)
        (msg : String) (cf : Option String) (s1 : Eng),
      add_impulse_noise_column s col (some (("noised_impulse_") ++ col)) spct nsamp
          imag ipct perm noise = (none, s1) →
      hasCol s.table col = true →
      lowerStr col ≠ lowerStr (("noised_impulse_") ++ col) →
      (impulse_column s col spct nsamp imag ipct perm noise (some msg) cf).1 = some msg ∧
      (cf = none →
        hasCol (impulse_column s col spct nsamp imag ipct perm noise (some msg) cf).2.table
          (("noised_impulse_") ++ col) = false)) ∧
    (∀ (s : Eng) (col : String) (spct : Option Rat) (nsamp : Option Int)
        (perm : List Nat) (pick : Nat → Bool) (msg : String) (cf : Option String) (s1 : Eng),
      add_salt_pepper_noise_column s col (some (("noised_salt_pepper_") ++ col)) spct nsamp
          perm pick = (none, s1) →
      hasCol s.table col = true →
      lowerStr col ≠ lowerStr (("noised_salt_pepper_") ++ col) →
      (salt_pepper_column s col spct nsamp perm pick (some msg) cf).1 = some msg ∧
      (cf = none →
        hasCol (salt_pepper_column s col spct nsamp perm pick (some msg) cf).2.table
          (("noised_salt_pepper_") ++ col) = false)) ∧
    (∀ (s : Eng) (base : String) (sd ed : Option String) (gen : Nat → Value)
        (temp : String),
      hasCol s.table base = true →
      isIdent (("_temp_syn_date_") ++ base) = true →
      ¬(sd = none ∧ ed = none) →
      0 < rowCount s.table →
      syn_date_column s base sd ed gen temp
        = (some (verboseKwargMsg ("add_column")), s)) ∧
    (∀ (s : Eng) (col temp : String) (draw : Nat → List Value) (msg : String)
        (cf : Option String) (s1 : Eng),
      add_gaussian_noise_column s col (some (("noised_") ++ col)) temp draw = (none, s1) →
      hasCol s.table col = true →
      (s.table.map (fun c => lowerStr c.1)).contains (lowerStr (("noised_") ++ col)) = false →
      (gaussian_column s col temp draw (some msg) cf).1 = some msg ∧
      hasCol (gaussian_column s col temp draw (some msg) cf).2.table
        (("noised_") ++ col) = true) := by
  refine ⟨?_, ?_, ?_, ?_⟩
  · intro s col spct nsamp imag ipct perm noise msg cf s1 hst hb hne
    have hcc : hasCol s1.table col = true :=
      add_impulse_success_hasCol s col _ spct nsamp imag ipct perm noise s1 hst col hb
    have hred : impulse_column s col spct nsamp imag ipct perm noise (some msg) cf
        = (some msg, (dropOpF cf [("noised_impulse_") ++ col] s1).2) := by
      simp only [impulse_column, hb, Bool.not_true, Bool.false_eq_true, if_false, hst]
      rfl
    rw [hred]
    refine ⟨rfl, ?_⟩
    intro hcf
    subst hcf
    exact dropOp_clears s1 _ col hcc hne
  · intro s col spct nsamp perm pick msg cf s1 hst hb hne
    have hcc : hasCol s1.table col = true :=
      add_salt_pepper_success_hasCol s col _ spct nsamp perm pick s1 hst col hb
    have hred : salt_pepper_column s col spct nsamp perm pick (some msg) cf
        = (some msg, (dropOpF cf [("noised_salt_pepper_") ++ col] s1).2) := by
      simp only [salt_pepper_column, hb, Bool.not_true, Bool.false_eq_true, if_false, hst]
      rfl
    rw [hred]
    refine ⟨rfl, ?_⟩
    intro hcf
    subst hcf
    exact dropOp_clears s1 _ col hcc hne
  · intro s base sd ed gen temp hb hid hdates hrc
    have hst : add_syn_date_column s (some base) (some (("_temp_syn_date_") ++ base)) sd ed gen temp
        = (some (verboseKwargMsg ("add_column")), s) := by
      rw [add_syn_date_some_eq]
      rw [if_neg (by simp [hid])]
      rw [if_neg (by simp [hb])]
      rw [if_neg hdates]
      rw [if_neg (by omega)]
    simp only [syn_date_column, hb, Bool.not_true, Bool.false_eq_true, if_false, hst]
  · intro s col temp draw msg cf s1 hst hb hguard
    have hshape := add_gaussian_success_table s col _ temp draw s1 hst
    simp only [Option.getD_some] at hshape
    have hred : gaussian_column s col temp draw (some msg) cf = (some msg, s1) := by
      simp only [gaussian_column, hb, Bool.not_true, Bool.false_eq_true, if_false, hst, hguard]
      rfl
    rw [hred]
    refine ⟨rfl, ?_⟩
    rw [hshape]
    exact hasCol_append_self _ _ _

/-- Witness for the amended C3: a concrete `impulse_column` call whose
stage succeeds and whose adoption fails with `boom` surfaces `boom` and
returns a state without the staged `noised_impulse_a` column. -/
theorem claim_c3_stage_adopt_cleanup_amended_witness :
    (impulse_column (Eng.mk [(("a"), [Value.vint 1, Value.vint 2])] []) ("a")
        none (some 1) (some 1) none [0, 1] (fun _ => Value.vint 9) (some ("boom")) none).1
      = some ("boom") ∧
    hasCol (impulse_column (Eng.mk [(("a"), [Value.vint 1, Value.vint 2])] []) ("a")
        none (some 1) (some 1) none [0, 1] (fun _ => Value.vint 9) (some ("boom")) none).2.table
      (("noised_impulse_") ++ ("a")) = false :=
  have h := claim_c3_stage_adopt_cleanup_amended.1
    (Eng.mk [(("a"), [Value.vint 1, Value.vint 2])] []) ("a") none (some 1) (some 1) none
    [0, 1] (fun _ => Value.vint 9) ("boom") none
    (add_impulse_noise_column (Eng.mk [(("a"), [Value.vint 1, Value.vint 2])] []) ("a")
      (some (("noised_impulse_") ++ ("a"))) none (some 1) (some 1) none [0, 1]
      (fun _ => Value.vint 9)).2
    rfl (by decide) (by decide)
  ⟨h.1, h.2 rfl⟩
